import Mathlib

/-!
# Observation viability calculators and the estimation test cases

A shallow embedding of
`Tudat/Astrodynamics/ObservationModels/observationViabilityCalculator.cpp`:

* the registry form of `isObservationViable` (a `std::map` from link ends to
  vectors of calculators),
* the list form of `isObservationViable` (a `std::vector` of calculators),
* `MinimumElevationAngleCalculator::isObservationViable`,

and of the parts of `orbitDeterminationTestCases.h` that prepare the input
of the estimator (`baseTimeList`, the perturbed parameter estimate), computed
in IEEE 754 double precision (the type `Double` below).  The observation
simulator and the batch estimator, which the test cases call and which are
not among the sources, are written from the specification.

Conventions of the embedding of the viability calculators.

* `double` is an arbitrary type `R`; the only arithmetic the file performs is
  the subtraction of two `Eigen::Vector6d`, so `R` carries a `Sub` instance
  and nothing else.  `Eigen::Vector6d` is `Fin 6 → R`, `Eigen::Vector3d` is
  `Fin 3 → R`.
* `std::vector` is `List`; `std::vector::at` and `std::map::at` throw
  `std::out_of_range`, so every function returns `Except Exception _`.
* The loop counters are `unsigned int` compared with `size( )`; they do not
  wrap for vectors of fewer than `2 ^ 32` elements, and the loops are written
  as recursion over the vector.
* A calculator is used through the virtual method
  `isObservationViable( states, times )` only, so the base class is a record
  holding that method.
* `ground_stations::isTargetInView` is not part of the file.  The embedding
  of `MinimumElevationAngleCalculator` takes it as a parameter, a function
  that returns a boolean for every argument; the version written from the
  specification is used where a statement is about elevations.
-/

namespace tudat

namespace observation_models

/-- Exceptions that end an evaluation: `std::out_of_range` thrown by
`std::vector::at` and `std::map::at`, and any other exception a calculator
of another derived class may throw (identified by a number). -/
inductive Exception where
  | out_of_range : Exception
  | other : Nat → Exception
  deriving DecidableEq, Repr

/-- The type `Eigen::Vector6d`: six entries, numbered from 0. -/
abbrev Vector6 (R : Type) : Type := Fin 6 → R

/-- The type `Eigen::Vector3d`: three entries, numbered from 0. -/
abbrev Vector3 (R : Type) : Type := Fin 3 → R

/-- The Eigen call `v.segment( start, 3 )` on a six-vector: the three entries
`start`, `start + 1`, `start + 2`. -/
def segment {R : Type} (v : Vector6 R) (start : Fin 4) : Vector3 R :=
  fun i => v ⟨start.val + i.val, by omega⟩

/-- The call `xs.at( i )` of `std::vector`: the element at position `i`, or
`std::out_of_range` when `i` is not below `xs.size( )`. -/
def vectorAt {α : Type} (xs : List α) (i : Nat) : Except Exception α :=
  match xs[i]? with
  | some x => .ok x
  | none => .error .out_of_range

/-- The abstract class `ObservationViabilityCalculator`: the virtual method
`isObservationViable( states, times )`. -/
structure ObservationViabilityCalculator (R : Type) where
  /-- The virtual method. -/
  isObservationViable : List (Vector6 R) → List R → Except Exception Bool

/-- The data members of `MinimumElevationAngleCalculator`.  The entries of
`linkEndIndices_` are used as arguments of `std::vector::at` only and are
natural numbers here; `P` is the type of the pointing-angles calculator. -/
structure MinimumElevationAngleCalculator (R P : Type) where
  /-- The pairs of indices `( first, second )` to check. -/
  linkEndIndices_ : List (Nat × Nat)
  /-- The threshold handed to `isTargetInView`. -/
  minimumElevationAngle_ : R
  /-- The calculator handed to `isTargetInView`. -/
  pointingAngleCalculator_ : P

/-- The operand of the `if` in the loop body of
`MinimumElevationAngleCalculator::isObservationViable` for one entry `idx` of
`linkEndIndices_`:
`isTargetInView( linkEndTimes.at( idx.first ),
( linkEndStates.at( idx.second ) - linkEndStates.at( idx.first ) ).segment( 0, 3 ),
pointingAngleCalculator_, minimumElevationAngle_ )`.
The function `ground_stations::isTargetInView` is a parameter. -/
def MinimumElevationAngleCalculator.targetInView {R P : Type} [Sub R]
    (isTargetInView : R → Vector3 R → P → R → Bool)
    (c : MinimumElevationAngleCalculator R P)
    (linkEndStates : List (Vector6 R)) (linkEndTimes : List R)
    (idx : Nat × Nat) : Except Exception Bool :=
  match vectorAt linkEndTimes idx.1, vectorAt linkEndStates idx.2,
      vectorAt linkEndStates idx.1 with
  | .ok time, .ok target, .ok station =>
      .ok (isTargetInView time (segment (target - station) 0)
        c.pointingAngleCalculator_ c.minimumElevationAngle_)
  | _, _, _ => .error .out_of_range

/-- The `for` loop of `MinimumElevationAngleCalculator::isObservationViable`
over the remaining entries of `linkEndIndices_`, with the current value of
the local `isObservationPossible`.  There is no `break`: an entry that fails
sets the flag to false and the loop goes on. -/
def MinimumElevationAngleCalculator.checkLinks {R P : Type} [Sub R]
    (isTargetInView : R → Vector3 R → P → R → Bool)
    (c : MinimumElevationAngleCalculator R P)
    (linkEndStates : List (Vector6 R)) (linkEndTimes : List R) :
    List (Nat × Nat) → Bool → Except Exception Bool
  | [], isObservationPossible => .ok isObservationPossible
  | idx :: rest, isObservationPossible =>
    match c.targetInView isTargetInView linkEndStates linkEndTimes idx with
    | .error e => .error e
    | .ok inView =>
      if inView == false then
        checkLinks isTargetInView c linkEndStates linkEndTimes rest false
      else
        checkLinks isTargetInView c linkEndStates linkEndTimes rest
          isObservationPossible

/-- The method `MinimumElevationAngleCalculator::isObservationViable`. -/
def MinimumElevationAngleCalculator.isObservationViable {R P : Type} [Sub R]
    (isTargetInView : R → Vector3 R → P → R → Bool)
    (c : MinimumElevationAngleCalculator R P)
    (linkEndStates : List (Vector6 R)) (linkEndTimes : List R) :
    Except Exception Bool :=
  c.checkLinks isTargetInView linkEndStates linkEndTimes c.linkEndIndices_ true

/-- A `MinimumElevationAngleCalculator` seen through a pointer to its base
class. -/
def MinimumElevationAngleCalculator.toCalculator {R P : Type} [Sub R]
    (isTargetInView : R → Vector3 R → P → R → Bool)
    (c : MinimumElevationAngleCalculator R P) :
    ObservationViabilityCalculator R :=
  ⟨c.isObservationViable isTargetInView⟩

/-- One run of the list form of `isObservationViable`: the value returned (or
the exception that leaves the function) together with the calculators whose
`isObservationViable` was called, in call order.  The loop stops at the
first calculator that returns false (`break`) or throws. -/
def isObservationViable_vectorRun {R : Type}
    (states : List (Vector6 R)) (times : List R) :
    List (ObservationViabilityCalculator R) →
      Except Exception Bool × List (ObservationViabilityCalculator R)
  | [] => (.ok true, [])
  | calculator :: rest =>
    match calculator.isObservationViable states times with
    | .error e => (.error e, [calculator])
    | .ok false => (.ok false, [calculator])
    | .ok true =>
      ((isObservationViable_vectorRun states times rest).1,
        calculator :: (isObservationViable_vectorRun states times rest).2)

/-- The list form of `isObservationViable`
(`const std::vector< boost::shared_ptr< ObservationViabilityCalculator > >&`). -/
def isObservationViable_vector {R : Type}
    (states : List (Vector6 R)) (times : List R)
    (viabilityCalculators : List (ObservationViabilityCalculator R)) :
    Except Exception Bool :=
  (isObservationViable_vectorRun states times viabilityCalculators).1

/-- A `std::map< K, V >` as the list of its entries; a key is looked up from
the front. -/
abbrev StdMap (K V : Type) : Type := List (K × V)

/-- The entry of a map stored under key `k`, if there is one. -/
def StdMap.find {K V : Type} [DecidableEq K] : StdMap K V → K → Option V
  | [], _ => none
  | (k', v) :: rest, k => if k' = k then some v else StdMap.find rest k

/-- The call `m.count( k )` of `std::map`: 1 if the key is present, else 0. -/
def StdMap.count {K V : Type} [DecidableEq K] (m : StdMap K V) (k : K) : Nat :=
  match StdMap.find m k with
  | some _ => 1
  | none => 0

/-- The call `m.at( k )` of `std::map`: the value stored under `k`, or
`std::out_of_range` when the key is absent. -/
def StdMap.at {K V : Type} [DecidableEq K] (m : StdMap K V) (k : K) :
    Except Exception V :=
  match StdMap.find m k with
  | some v => .ok v
  | none => .error .out_of_range

/-- One run of the registry form of `isObservationViable`: the value returned
together with the calculators that were called, in call order. -/
def isObservationViable_mapRun {R LinkEnds : Type} [DecidableEq LinkEnds]
    (states : List (Vector6 R)) (times : List R) (linkEnds : LinkEnds)
    (viabilityCalculators :
      StdMap LinkEnds (List (ObservationViabilityCalculator R))) :
    Except Exception Bool × List (ObservationViabilityCalculator R) :=
  if StdMap.count viabilityCalculators linkEnds > 0 then
    match StdMap.at viabilityCalculators linkEnds with
    | .ok calculators => isObservationViable_vectorRun states times calculators
    | .error e => (.error e, [])
  else
    (.ok true, [])

/-- The registry form of `isObservationViable`
(`const std::map< LinkEnds, std::vector< ... > >&`). -/
def isObservationViable_map {R LinkEnds : Type} [DecidableEq LinkEnds]
    (states : List (Vector6 R)) (times : List R) (linkEnds : LinkEnds)
    (viabilityCalculators :
      StdMap LinkEnds (List (ObservationViabilityCalculator R))) :
    Except Exception Bool :=
  (isObservationViable_mapRun states times linkEnds viabilityCalculators).1

/-- Reference evaluation of a list of calculators, following the words of
the specification: every calculator of the list is evaluated, without
short-circuit, and the outcomes are AND-ed (the shape of the loop of
`MinimumElevationAngleCalculator::isObservationViable`, one level up). -/
def evaluateAllAndConjoin {R : Type}
    (states : List (Vector6 R)) (times : List R) :
    List (ObservationViabilityCalculator R) → Bool → Except Exception Bool
  | [], conjunction => .ok conjunction
  | calculator :: rest, conjunction =>
    match calculator.isObservationViable states times with
    | .error e => .error e
    | .ok outcome =>
      evaluateAllAndConjoin states times rest (conjunction && outcome)

/-- The C++ expression `a && b` on two evaluations: `b` is evaluated only
when `a` returned true, and an exception thrown by the operand that is
evaluated leaves the expression. -/
def lazyAnd (a b : Except Exception Bool) : Except Exception Bool :=
  match a with
  | .error e => .error e
  | .ok false => .ok false
  | .ok true => b

/-- The AND of two results that have both been obtained, each evaluation
taken by itself: the Boolean AND when both returned booleans; when an
evaluation threw there is no boolean to AND and the exception stands (the
first one when both threw). -/
def strictAnd (a b : Except Exception Bool) : Except Exception Bool :=
  match a, b with
  | .ok x, .ok y => .ok (x && y)
  | .error e, _ => .error e
  | .ok _, .error e => .error e

/-- Modelled from the spec: the class `PointingAnglesCalculator` is not among
the sources; the specification gives the pointing-angle collaborator as
`elevation(relativePositionVector, time) -> angle`, bound to one station. -/
structure PointingAnglesCalculator (R : Type) where
  /-- The elevation of a relative position vector at a time. -/
  calculateElevationAngle : Vector3 R → R → R

/-- Modelled from the spec: the function `ground_stations::isTargetInView` is
not among the sources; the specification says it answers whether, at the
given time, the elevation of the vector exceeds the threshold. -/
def isTargetInView {R : Type} [LT R] [DecidableRel (fun a b : R => a < b)]
    (time : R) (targetRelativeState : Vector3 R)
    (pointingAngleCalculator : PointingAnglesCalculator R)
    (minimumElevationAngle : R) : Bool :=
  decide (minimumElevationAngle <
    pointingAngleCalculator.calculateElevationAngle targetRelativeState time)

/-- The indices of the pair `idx` are in range for the given states and
times: `first` below the number of times and of states, `second` below the
number of states. -/
def IndicesInRange {R : Type} (states : List (Vector6 R)) (times : List R)
    (idx : Nat × Nat) : Prop :=
  idx.1 < times.length ∧ idx.1 < states.length ∧ idx.2 < states.length

instance {R : Type} (states : List (Vector6 R)) (times : List R)
    (idx : Nat × Nat) : Decidable (IndicesInRange states times idx) := by
  unfold IndicesInRange
  infer_instance

/-- The per-pair elevation test for a pair whose indices are in range:
`isTargetInView( times[first], position part of ( states[second] -
states[first] ), calculator, threshold )`. -/
def MinimumElevationAngleCalculator.pairTest {R P : Type} [Sub R]
    (isTargetInView : R → Vector3 R → P → R → Bool)
    (c : MinimumElevationAngleCalculator R P)
    (states : List (Vector6 R)) (times : List R) (idx : Nat × Nat)
    (h : IndicesInRange states times idx) : Bool :=
  isTargetInView (times.get ⟨idx.1, h.1⟩)
    (segment (states.get ⟨idx.2, h.2.2⟩ - states.get ⟨idx.1, h.2.1⟩) 0)
    c.pointingAngleCalculator_ c.minimumElevationAngle_

/-! ### Concrete data used to evaluate the definitions

Scalars are integers; angles are whole degrees. -/

namespace Example

/-- A six-vector from its position and velocity entries. -/
def state (x y z vx vy vz : Int) : Vector6 Int :=
  fun i => [x, y, z, vx, vy, vz].getD i.val 0

/-- A pointing-angles calculator whose elevation is the third entry of the
relative position plus the time. -/
def pointing : PointingAnglesCalculator Int :=
  ⟨fun v t => v 2 + t⟩

/-- Two link-end states: a station at the origin and a target whose relative
position has third entry 15. -/
def states : List (Vector6 Int) :=
  [state 0 0 0 7 7 7, state 1 2 15 0 0 0]

/-- Two link-end times. -/
def times : List Int := [0, 100]

/-- The calculator for the pair `( 0, 1 )` with the given threshold. -/
def minimumElevation (threshold : Int) :
    MinimumElevationAngleCalculator Int (PointingAnglesCalculator Int) :=
  ⟨[(0, 1)], threshold, pointing⟩

/-- A calculator that passes on `states`, `times`: elevation 15 above 10. -/
def passing : ObservationViabilityCalculator Int :=
  (minimumElevation 10).toCalculator isTargetInView

/-- A calculator that fails on `states`, `times`: elevation 15 not above 20. -/
def failing : ObservationViabilityCalculator Int :=
  (minimumElevation 20).toCalculator isTargetInView

/-- A calculator whose second pair has a state index out of range for two
states. -/
def outOfRange : ObservationViabilityCalculator Int :=
  (MinimumElevationAngleCalculator.mk [(0, 1), (0, 2)] 10 pointing).toCalculator
    isTargetInView

/-- A calculator with two pairs, both in range for two states and two
times: pair `( 0, 1 )` has elevation 15 and pair `( 1, 0 )` has elevation
-15 + 100 = 85; with threshold 50 the first fails and the second passes. -/
def twoPairs :
    MinimumElevationAngleCalculator Int (PointingAnglesCalculator Int) :=
  ⟨[(0, 1), (1, 0)], 50, pointing⟩

/-- A calculator whose first pair fails the elevation test (15 is not above
20) and whose second pair has a state index out of range for two states. -/
def failingThenOutOfRange :
    MinimumElevationAngleCalculator Int (PointingAnglesCalculator Int) :=
  ⟨[(0, 1), (0, 2)], 20, pointing⟩

/-- A state provider: at time `t` the station is at the origin and the
relative position of the target has third entry `t`; both link-end times are
0, so the elevation of the epoch is `t`. -/
def provider (t : Int) : List (Vector6 Int) × List Int :=
  ([state 0 0 0 0 0 0, state 0 0 t 1 1 1], [0, 0])

/-- An observable: twice the third position entry of the second state. -/
def observable (states : List (Vector6 Int)) (_times : List Int) : Int :=
  2 * (states.getD 1 (state 0 0 0 0 0 0)) 2

end Example

/-! ### The calls with explicit memory

The functions above are written as functions of what the C++ code reads.
The versions below also return the memory reachable from the call after it
has returned: the vectors of states and times, the calculators behind the
shared pointers (the method `isObservationViable` is not `const`, so a call
hands back the object it was called on), and the vector or map that holds
them. -/

/-- The memory reachable from a call of
`MinimumElevationAngleCalculator::isObservationViable`: the object of the
call, with its index pairs, threshold and pointing-angles calculator, and the
two vectors received by reference. -/
structure CalculatorMemory (R P : Type) where
  /-- The object the method is called on. -/
  calculator : MinimumElevationAngleCalculator R P
  /-- The argument `linkEndStates`. -/
  linkEndStates : List (Vector6 R)
  /-- The argument `linkEndTimes`. -/
  linkEndTimes : List R

/-- The `for` loop of `MinimumElevationAngleCalculator::isObservationViable`
with the memory handed from one iteration to the next.  An iteration reads
the members and the arguments from the current memory; its only assignment
is to the local `isObservationPossible`. -/
def MinimumElevationAngleCalculator.checkLinksIn {R P : Type} [Sub R]
    (isTargetInView : R → Vector3 R → P → R → Bool) :
    List (Nat × Nat) → Bool → CalculatorMemory R P →
      Except Exception Bool × CalculatorMemory R P
  | [], isObservationPossible, memory => (.ok isObservationPossible, memory)
  | idx :: rest, isObservationPossible, memory =>
    match memory.calculator.targetInView isTargetInView memory.linkEndStates
        memory.linkEndTimes idx with
    | .error e => (.error e, memory)
    | .ok inView =>
      if inView == false then
        checkLinksIn isTargetInView rest false memory
      else
        checkLinksIn isTargetInView rest isObservationPossible memory

/-- The method `MinimumElevationAngleCalculator::isObservationViable` with
the memory after the call. -/
def MinimumElevationAngleCalculator.isObservationViableIn {R P : Type} [Sub R]
    (isTargetInView : R → Vector3 R → P → R → Bool)
    (memory : CalculatorMemory R P) :
    Except Exception Bool × CalculatorMemory R P :=
  MinimumElevationAngleCalculator.checkLinksIn isTargetInView
    memory.calculator.linkEndIndices_ true memory

/-- The memory reachable from a call of the list form: the two vectors and
the calculators the vector of shared pointers points to. -/
structure VectorMemory (R P : Type) where
  /-- The argument `states`. -/
  states : List (Vector6 R)
  /-- The argument `times`. -/
  times : List R
  /-- The objects behind the argument `viabilityCalculators`. -/
  viabilityCalculators : List (MinimumElevationAngleCalculator R P)

/-- The loop of the list form with the memory handed on: `called` are the
calculators already called, as their calls left them, and `remaining` those
not yet reached.  Each call gets the current states and times and hands back
the object, the states and the times. -/
def isObservationViable_vectorIn {R P : Type} [Sub R]
    (isTargetInView : R → Vector3 R → P → R → Bool) :
    List (MinimumElevationAngleCalculator R P) →
      List (MinimumElevationAngleCalculator R P) →
      List (Vector6 R) → List R → Except Exception Bool × VectorMemory R P
  | called, [], states, times => (.ok true, ⟨states, times, called⟩)
  | called, calculator :: rest, states, times =>
    match MinimumElevationAngleCalculator.isObservationViableIn isTargetInView
        ⟨calculator, states, times⟩ with
    | (.error e, after) =>
      (.error e, ⟨after.linkEndStates, after.linkEndTimes,
        called ++ after.calculator :: rest⟩)
    | (.ok false, after) =>
      (.ok false, ⟨after.linkEndStates, after.linkEndTimes,
        called ++ after.calculator :: rest⟩)
    | (.ok true, after) =>
      isObservationViable_vectorIn isTargetInView
        (called ++ [after.calculator]) rest after.linkEndStates
        after.linkEndTimes

/-- The map with the value stored under key `k` replaced by `v`; a map
without the key is left as it is. -/
def StdMap.assign {K V : Type} [DecidableEq K] : StdMap K V → K → V → StdMap K V
  | [], _, _ => []
  | (k', v') :: rest, k, v =>
    if k' = k then (k', v) :: rest else (k', v') :: StdMap.assign rest k v

/-- The memory reachable from a call of the registry form: the two vectors
and the map with the calculators its vectors of shared pointers point to. -/
structure MapMemory (R P LinkEnds : Type) where
  /-- The argument `states`. -/
  states : List (Vector6 R)
  /-- The argument `times`. -/
  times : List R
  /-- The argument `viabilityCalculators` with the objects behind it. -/
  viabilityCalculators :
    StdMap LinkEnds (List (MinimumElevationAngleCalculator R P))

/-- The registry form with the memory after the call: the calculators stored
under `linkEnds` are left as the list form leaves them. -/
def isObservationViable_mapIn {R P LinkEnds : Type} [Sub R]
    [DecidableEq LinkEnds] (isTargetInView : R → Vector3 R → P → R → Bool)
    (linkEnds : LinkEnds) (memory : MapMemory R P LinkEnds) :
    Except Exception Bool × MapMemory R P LinkEnds :=
  if StdMap.count memory.viabilityCalculators linkEnds > 0 then
    match StdMap.at memory.viabilityCalculators linkEnds with
    | .ok calculators =>
      ((isObservationViable_vectorIn isTargetInView [] calculators
          memory.states memory.times).1,
        ⟨(isObservationViable_vectorIn isTargetInView [] calculators
            memory.states memory.times).2.states,
          (isObservationViable_vectorIn isTargetInView [] calculators
            memory.states memory.times).2.times,
          StdMap.assign memory.viabilityCalculators linkEnds
            (isObservationViable_vectorIn isTargetInView [] calculators
              memory.states memory.times).2.viabilityCalculators⟩)
    | .error e => (.error e, memory)
  else
    (.ok true, memory)

/-! ### The observation simulator -/

/-- Modelled from the spec: the Observation Simulator (`simulateObservations`
and the observation simulators it calls are not among the sources).  For
each requested time, in the order given: the state provider gives the
link-end states and times of the epoch, the observable is computed from
them, the Viability Calculator Set (the registry form of
`isObservationViable`, from the sources) is applied to them, and the epoch
is kept with its computed value if it is viable and dropped otherwise.  An
exception of the viability evaluation is fatal and ends the simulation. -/
def simulateObservationsWithViability {R V LinkEnds : Type}
    [DecidableEq LinkEnds]
    (linkEndStatesAndTimes : R → List (Vector6 R) × List R)
    (observable : List (Vector6 R) → List R → V) (linkEnds : LinkEnds)
    (viabilityCalculators :
      StdMap LinkEnds (List (ObservationViabilityCalculator R))) :
    List R → Except Exception (List (R × V))
  | [] => .ok []
  | time :: rest =>
    match isObservationViable_map (linkEndStatesAndTimes time).1
        (linkEndStatesAndTimes time).2 linkEnds viabilityCalculators with
    | .error e => .error e
    | .ok viable =>
      match simulateObservationsWithViability linkEndStatesAndTimes observable
          linkEnds viabilityCalculators rest with
      | .error e => .error e
      | .ok later =>
        if viable then
          .ok ((time, observable (linkEndStatesAndTimes time).1
            (linkEndStatesAndTimes time).2) :: later)
        else
          .ok later

/-- Whether the Viability Calculator Set reports the epoch of `time` viable:
the registry form of `isObservationViable` returns true on the states and
times of that epoch. -/
def epochViable {R LinkEnds : Type} [DecidableEq LinkEnds]
    (linkEndStatesAndTimes : R → List (Vector6 R) × List R)
    (linkEnds : LinkEnds)
    (viabilityCalculators :
      StdMap LinkEnds (List (ObservationViabilityCalculator R)))
    (time : R) : Bool :=
  match isObservationViable_map (linkEndStatesAndTimes time).1
      (linkEndStatesAndTimes time).2 linkEnds viabilityCalculators with
  | .ok true => true
  | _ => false

end observation_models

/-! ## IEEE 754 double precision

The type `double` of the test cases.  A finite double is an integer multiple
of `2 ^ (-1074)` with at most 53 significant bits and magnitude below
`2 ^ 1024`; `finite units` stands for `units * 2 ^ (-1074)`.  The two zeros
are not told apart.  Results are rounded to nearest, ties to even. -/

/-- The values of an IEEE 754 binary64 number: `finite units` is the number
`units * 2 ^ (-1074)`, `infinity negative` is plus or minus infinity, `nan`
is not-a-number. -/
inductive Double where
  | finite : Int → Double
  | infinity : Bool → Double
  | nan : Double
  deriving DecidableEq, Repr

namespace Double

/-- The number of binary digits of `n` (0 for 0), counted with at most
`fuel` halvings; `fuel = n` is enough. -/
def bitLength : Nat → Nat → Nat
  | 0, _ => 0
  | fuel + 1, n => if n = 0 then 0 else bitLength fuel (n / 2) + 1

/-- The magnitude, in units of `2 ^ (-1074)`, of the double nearest to
`magnitude * 2 ^ (-1074 - extra)`: the digits below the 53 leading ones, and
in any case the `extra` last ones, are dropped, rounding to nearest and a tie
to the even neighbour. -/
def roundMagnitude (extra magnitude : Nat) : Nat :=
  let shift := max (bitLength magnitude magnitude - 53) extra
  let quotient := magnitude / 2 ^ shift
  let remainder := magnitude % 2 ^ shift
  (if 2 ^ shift < 2 * remainder ∨
      (2 * remainder = 2 ^ shift ∧ quotient % 2 = 1) then
    quotient + 1
  else
    quotient) * 2 ^ (shift - extra)

/-- The double nearest to the exact value `exact * 2 ^ (-1074 - extra)`;
a rounded magnitude of `2 ^ 1024` or more overflows to infinity. -/
@[irreducible]
def round (extra : Nat) (exact : Int) : Double :=
  if 2 ^ 2098 ≤ roundMagnitude extra exact.natAbs then
    .infinity (decide (exact < 0))
  else if exact < 0 then
    .finite (-(roundMagnitude extra exact.natAbs : Int))
  else
    .finite (roundMagnitude extra exact.natAbs : Int)

/-- Unary minus. -/
def neg : Double → Double
  | .finite a => .finite (-a)
  | .infinity negative => .infinity (!negative)
  | .nan => .nan

/-- Addition of doubles. -/
def add : Double → Double → Double
  | .finite a, .finite b => round 0 (a + b)
  | .finite _, .infinity negative => .infinity negative
  | .infinity negative, .finite _ => .infinity negative
  | .infinity negative₁, .infinity negative₂ =>
    if negative₁ = negative₂ then .infinity negative₁ else .nan
  | _, _ => .nan

/-- Multiplication of doubles. -/
def mul : Double → Double → Double
  | .finite a, .finite b => round 1074 (a * b)
  | .finite a, .infinity negative =>
    if a = 0 then .nan else .infinity (negative != decide (a < 0))
  | .infinity negative, .finite b =>
    if b = 0 then .nan else .infinity (negative != decide (b < 0))
  | .infinity negative₁, .infinity negative₂ =>
    .infinity (negative₁ != negative₂)
  | _, _ => .nan

/-- The comparison `a < b` of doubles; false when an operand is not a
number. -/
def lt : Double → Double → Bool
  | .finite a, .finite b => decide (a < b)
  | .finite _, .infinity negative => !negative
  | .infinity negative, .finite _ => negative
  | .infinity negative₁, .infinity negative₂ => negative₁ && !negative₂
  | _, _ => false

instance : Neg Double := ⟨neg⟩

instance : Add Double := ⟨add⟩

instance : Sub Double := ⟨fun a b => add a (neg b)⟩

instance : Mul Double := ⟨mul⟩

instance : LT Double := ⟨fun a b => lt a b = true⟩

instance (a b : Double) : Decidable (a < b) :=
  inferInstanceAs (Decidable (lt a b = true))

/-- The conversion `static_cast< double >( value )` of an integer, and the
value of a literal such as `1000.0`. -/
def ofInt (value : Int) : Double := round 0 (value * 2 ^ 1074)

/-- The double nearest to `mantissa * 2 ^ exponent`. -/
def ofBinary (mantissa exponent : Int) : Double :=
  if 0 ≤ exponent + 1074 then
    round 0 (mantissa * 2 ^ (exponent + 1074).toNat)
  else
    round (-(exponent + 1074)).toNat mantissa

/-- A finite double: `finite units` with `units` a value that a double can
hold. -/
def IsFinite : Double → Prop
  | .finite units => round 0 units = .finite units
  | _ => False

instance (d : Double) : Decidable d.IsFinite := by
  cases d <;> unfold IsFinite <;> infer_instance

/-- The double addition `t + q` is exact: `t` and `q` are finite, `q` is a
value a double can hold, and the sum needs no rounding. -/
def AddsExactly : Double → Double → Prop
  | .finite a, .finite b =>
    round 0 b = .finite b ∧ round 0 (a + b) = .finite (a + b)
  | _, _ => False

instance (t q : Double) : Decidable (AddsExactly t q) := by
  cases t <;> cases q <;> unfold AddsExactly <;> infer_instance

end Double

/-! ## The orbit determination test cases

An embedding of the parts of
`Tudat/Astrodynamics/OrbitDetermination/UnitTests/orbitDeterminationTestCases.h`
that prepare the input of the estimator, with the template parameters
`TimeType` and `StateScalarType` at their default, `double`. -/

namespace unit_tests

/-- The literal `1.0E-2`: the double nearest to one hundredth,
`5764607523034235 * 2 ^ (-59)`. -/
def oneHundredth : Double := Double.ofBinary 5764607523034235 (-59)

/-- The function `getDefaultInitialParameterPerturbation`: a vector of 7
entries, `1.0E3` at 0, 1, 2, `1.0E-2` at 3, 4, 5 and `5.0E6` at 6. -/
def getDefaultInitialParameterPerturbation : List Double :=
  [Double.ofInt 1000, Double.ofInt 1000, Double.ofInt 1000, oneHundredth,
    oneHundredth, oneHundredth, Double.ofInt 5000000]

/-- The two nested loops of `executeEarthOrbiterParameterEstimation` that
fill `baseTimeList`, after the given number of iterations of the outer loop:
iteration `i` appends, for `j` from 0 to 499,
`observationTimeStart + static_cast< double >( i ) * 86400.0 +
static_cast< double >( j ) * observationInterval`. -/
def baseTimeListLoop (observationTimeStart observationInterval : Double) :
    Nat → List Double
  | 0 => []
  | i + 1 =>
    baseTimeListLoop observationTimeStart observationInterval i ++
      (List.range 500).map (fun (j : Nat) =>
        observationTimeStart + Double.ofInt i * Double.ofInt 86400 +
          Double.ofInt j * observationInterval)

/-- The vector `baseTimeList` of `executeEarthOrbiterParameterEstimation`:
`initialEphemerisTime` is `startTime`, `observationTimeStart` is
`initialEphemerisTime + 1000.0`, `observationInterval` is `20.0`, and the
outer loop `for( int i = 0; i < numberOfDaysOfData; i++ )` runs
`numberOfDaysOfData` times, not at all when that number is not positive. -/
def baseTimeList (startTime : Double) (numberOfDaysOfData : Int) :
    List Double :=
  baseTimeListLoop (startTime + Double.ofInt 1000) (Double.ofInt 20)
    numberOfDaysOfData.toNat

/-- The loop `for( unsigned int i = 0; i < 7; i++ )` of
`executePlanetaryParameterEstimation` with `remaining` iterations to go, so
at `i = 7 - remaining`: the body is
`initialParameterEstimate( i ) += parameterPerturbation( i )`.  A
coefficient outside one of the two vectors has no value (Eigen asserts on
the index), and then the loop has no result. -/
def addPerturbationLoop (parameterPerturbation : List Double) :
    Nat → List Double → Option (List Double)
  | 0, initialParameterEstimate => some initialParameterEstimate
  | remaining + 1, initialParameterEstimate =>
    match initialParameterEstimate[7 - (remaining + 1)]?,
        parameterPerturbation[7 - (remaining + 1)]? with
    | some estimate, some perturbation =>
      addPerturbationLoop parameterPerturbation remaining
        (initialParameterEstimate.set (7 - (remaining + 1))
          (estimate + perturbation))
    | _, _ => none

/-- The block `// Perturb parameter estimate` of
`executePlanetaryParameterEstimation` and the construction of `PodInput`:
from the values of the parameter set (`truthParameters`) and the argument
`parameterPerturbation`, the pair of `initialParameterEstimate` and of the
fourth argument of `PodInput`, `initialParameterEstimate - truthParameters`.
A perturbation with zero rows is replaced by `Eigen::VectorXd::Zero( 7 )`. -/
def perturbParameterEstimate
    (truthParameters parameterPerturbation : List Double) :
    Option (List Double × List Double) :=
  match addPerturbationLoop
      (if parameterPerturbation.length = 0 then
        List.replicate 7 (Double.finite 0)
      else parameterPerturbation) 7 truthParameters with
  | some initialParameterEstimate =>
    some (initialParameterEstimate,
      List.zipWith (fun estimate truth => estimate - truth)
        initialParameterEstimate truthParameters)
  | none => none

end unit_tests

/-! ## The batch estimator -/

namespace orbit_determination

/-- The fatal error of the Batch Estimator: the matrix of the normal
equations is singular. -/
inductive EstimationError where
  | singular_normal_equations : EstimationError
  deriving DecidableEq, Repr

/-- Modelled from the spec: the Batch Estimator
(`OrbitDeterminationManager::estimateParameters` is not among the sources,
the test cases only call it).  The matrix of the weighted normal equations
of section 4.5, step 4: `N = HᵗWH + P₀⁻¹`, with `H` the stacked partials
matrix, `W` the diagonal matrix of the weights and `P₀⁻¹` the a-priori
inverse covariance, the zero matrix if none is supplied.  The scalars are
those of a field: rounding is not part of the model. -/
def normalEquationsMatrix {m n K : Type} [Fintype m] [DecidableEq m] [Field K]
    (H : Matrix m n K) (weights : m → K)
    (inverseAPrioriCovariance : Option (Matrix n n K)) : Matrix n n K :=
  H.transpose * Matrix.diagonal weights * H + inverseAPrioriCovariance.getD 0

/-- Modelled from the spec: the right-hand side of the weighted normal
equations of section 4.5, step 4 (the Batch Estimator is not among the
sources): `b = HᵗW·residual − P₀⁻¹·(current_estimate −
a_priori_reference)`. -/
def normalEquationsRightHandSide {m n K : Type} [Fintype m] [DecidableEq m]
    [Fintype n] [Field K]
    (H : Matrix m n K) (weights : m → K)
    (inverseAPrioriCovariance : Option (Matrix n n K))
    (residual : m → K) (currentEstimate aPrioriReference : n → K) : n → K :=
  (H.transpose * Matrix.diagonal weights).mulVec residual -
    (inverseAPrioriCovariance.getD 0).mulVec
      (currentEstimate - aPrioriReference)

/-- Modelled from the spec: step 5 of section 4.5 (the Batch Estimator is
not among the sources), the solve of `N·Δx = b` for the parameter
correction.  A singular matrix is a fatal error; otherwise the correction is
computed by Cramer's rule, `Δx = det(N)⁻¹ · adj(N) · b`. -/
def solveNormalEquations {n K : Type} [Fintype n] [DecidableEq n] [Field K]
    [DecidableEq K] (N : Matrix n n K) (b : n → K) :
    Except EstimationError (n → K) :=
  if N.det = 0 then .error .singular_normal_equations
  else .ok (N.det⁻¹ • N.adjugate.mulVec b)

/-- Modelled from the spec: what the Batch Estimator (not among the sources)
is given for a run: the partials and the residuals of the observations as
functions of the current parameter estimate (the collaborators of sections
4.3 and 4.4), the weights, the a-priori inverse covariance if one is
supplied, and the a-priori reference. -/
structure BatchEstimator (m n K : Type) where
  /-- The stacked partials matrix `H` at a parameter estimate. -/
  partials : (n → K) → Matrix m n K
  /-- The residuals, observed minus predicted, at a parameter estimate. -/
  residuals : (n → K) → m → K
  /-- The diagonal of the weight matrix `W`. -/
  weights : m → K
  /-- The a-priori inverse covariance `P₀⁻¹`, if supplied. -/
  inverseAPrioriCovariance : Option (Matrix n n K)
  /-- The a-priori reference. -/
  aPrioriReference : n → K

/-- Modelled from the spec: steps 4 and 5 of an iteration of the Batch
Estimator (not among the sources) at the current estimate: build `N` and
`b`, solve `N·Δx = b`. -/
def BatchEstimator.correction {m n K : Type} [Fintype m] [DecidableEq m]
    [Fintype n] [DecidableEq n] [Field K] [DecidableEq K]
    (estimator : BatchEstimator m n K) (currentEstimate : n → K) :
    Except EstimationError (n → K) :=
  solveNormalEquations
    (normalEquationsMatrix (estimator.partials currentEstimate)
      estimator.weights estimator.inverseAPrioriCovariance)
    (normalEquationsRightHandSide (estimator.partials currentEstimate)
      estimator.weights estimator.inverseAPrioriCovariance
      (estimator.residuals currentEstimate) currentEstimate
      estimator.aPrioriReference)

/-- Modelled from the spec: the parameter estimate of the Batch Estimator
(not among the sources) after the given number of iterations from an initial
estimate; step 6 of section 4.5 updates the estimate by `Δx`. -/
def BatchEstimator.estimateAfter {m n K : Type} [Fintype m] [DecidableEq m]
    [Fintype n] [DecidableEq n] [Field K] [DecidableEq K]
    (estimator : BatchEstimator m n K) (initialEstimate : n → K) :
    Nat → Except EstimationError (n → K)
  | 0 => .ok initialEstimate
  | iteration + 1 =>
    match estimator.estimateAfter initialEstimate iteration with
    | .error e => .error e
    | .ok currentEstimate =>
      match estimator.correction currentEstimate with
      | .error e => .error e
      | .ok correction => .ok (currentEstimate + correction)

namespace Example

/-- Two observations of one parameter `x`, with partials 1 and 2, observed
values 3 and 6 (so residuals `3 - x` and `6 - 2 x`), unit weights, no
a-priori covariance. -/
def linear : BatchEstimator (Fin 2) (Fin 1) Rat where
  partials := fun _ => Matrix.of (fun i _ => if i = 0 then 1 else 2)
  residuals := fun x i => if i = 0 then 3 - x 0 else 6 - 2 * x 0
  weights := fun _ => 1
  inverseAPrioriCovariance := none
  aPrioriReference := fun _ => 0

end Example

end orbit_determination

namespace observation_models

/-! ### Equations of the list form and of the map operations -/

theorem isObservationViable_vector_nil {R : Type}
    (states : List (Vector6 R)) (times : List R) :
    isObservationViable_vector states times [] = .ok true := rfl

theorem isObservationViable_vector_cons {R : Type}
    (states : List (Vector6 R)) (times : List R)
    (c : ObservationViabilityCalculator R)
    (rest : List (ObservationViabilityCalculator R)) :
    isObservationViable_vector states times (c :: rest) =
      lazyAnd (c.isObservationViable states times)
        (isObservationViable_vector states times rest) := by
  unfold isObservationViable_vector
  rw [isObservationViable_vectorRun]
  cases hc : c.isObservationViable states times with
  | error e => rfl
  | ok b => cases b <;> rfl

theorem StdMap.find_eq_none {K V : Type} [DecidableEq K] (m : StdMap K V)
    (k : K) (h : ∀ entry ∈ m, entry.1 ≠ k) : StdMap.find m k = none := by
  induction m with
  | nil => rfl
  | cons entry rest ih =>
    obtain ⟨k', v⟩ := entry
    have hk : k' ≠ k := h (k', v) (List.mem_cons_self _ _)
    have hrest : ∀ e ∈ rest, e.1 ≠ k := fun e he =>
      h e (List.mem_cons_of_mem _ he)
    simp [StdMap.find, hk, ih hrest]

/-! ### The registry form -/

/-- Claim C1. When `linkEnds` is not a key of the registry, the registry form
of `isObservationViable` returns true for all states and times, empty or not,
and calls no calculator; this holds in particular for the empty registry. -/
theorem isObservationViable_map_absent {R LinkEnds : Type}
    [DecidableEq LinkEnds]
    (registry : StdMap LinkEnds (List (ObservationViabilityCalculator R)))
    (linkEnds : LinkEnds) (states : List (Vector6 R)) (times : List R)
    (h : ∀ entry ∈ registry, entry.1 ≠ linkEnds) :
    isObservationViable_map states times linkEnds registry = .ok true ∧
      (isObservationViable_mapRun states times linkEnds registry).2 = [] ∧
      isObservationViable_map states times linkEnds
        ([] : StdMap LinkEnds (List (ObservationViabilityCalculator R))) =
          .ok true := by
  have hfind := StdMap.find_eq_none registry linkEnds h
  refine ⟨?_, ?_, rfl⟩
  · simp [isObservationViable_map, isObservationViable_mapRun, StdMap.count,
      hfind]
  · simp [isObservationViable_mapRun, StdMap.count, hfind]

/-- Evaluation of claim C1: a registry whose only key is 7, holding a
calculator that would throw, asked for key 3 with empty states and times. -/
theorem isObservationViable_map_absent_witness :
    (∀ entry ∈ ([(7, [Example.outOfRange])] :
        StdMap Nat (List (ObservationViabilityCalculator Int))),
      entry.1 ≠ 3) ∧
    isObservationViable_map [] [] 3 [(7, [Example.outOfRange])] = .ok true ∧
    (isObservationViable_mapRun [] [] 3 [(7, [Example.outOfRange])]).2 = [] ∧
    isObservationViable_map ([] : List (Vector6 Int)) [] 3
      ([] : StdMap Nat (List (ObservationViabilityCalculator Int))) =
        .ok true :=
  ⟨by simp, isObservationViable_map_absent [(7, [Example.outOfRange])] 3 [] []
    (by simp)⟩

/-- Claim C4. When the registry holds `linkEnds` as a key, the registry form
returns what the list form returns on the list stored under that key, and
calls the same calculators; a key stored with the empty list gives true. -/
theorem isObservationViable_map_present {R LinkEnds : Type}
    [DecidableEq LinkEnds]
    (registry : StdMap LinkEnds (List (ObservationViabilityCalculator R)))
    (linkEnds : LinkEnds)
    (calculators : List (ObservationViabilityCalculator R))
    (states : List (Vector6 R)) (times : List R)
    (h : StdMap.find registry linkEnds = some calculators) :
    isObservationViable_map states times linkEnds registry =
        isObservationViable_vector states times calculators ∧
      (isObservationViable_mapRun states times linkEnds registry).2 =
        (isObservationViable_vectorRun states times calculators).2 ∧
      (calculators = [] →
        isObservationViable_map states times linkEnds registry = .ok true) := by
  have hrun : isObservationViable_mapRun states times linkEnds registry =
      isObservationViable_vectorRun states times calculators := by
    simp [isObservationViable_mapRun, StdMap.count, StdMap.at, h]
  refine ⟨?_, ?_, ?_⟩
  · simp [isObservationViable_map, isObservationViable_vector, hrun]
  · rw [hrun]
  · intro hnil
    subst hnil
    simp [isObservationViable_map, hrun, isObservationViable_vectorRun]

/-- Evaluation of claim C4: key 3 stored with a failing calculator, next to
key 7 stored with the empty list. -/
theorem isObservationViable_map_present_witness :
    StdMap.find ([(7, []), (3, [Example.passing, Example.failing])] :
        StdMap Nat (List (ObservationViabilityCalculator Int))) 3 =
      some [Example.passing, Example.failing] ∧
    isObservationViable_map Example.states Example.times 3
        [(7, []), (3, [Example.passing, Example.failing])] = .ok false ∧
    isObservationViable_vector Example.states Example.times
        [Example.passing, Example.failing] = .ok false ∧
    isObservationViable_map Example.states Example.times 7
        [(7, []), (3, [Example.passing, Example.failing])] = .ok true :=
  ⟨by simp [StdMap.find],
    ((isObservationViable_map_present
      [(7, []), (3, [Example.passing, Example.failing])] 3
      [Example.passing, Example.failing] Example.states Example.times
      (by simp [StdMap.find])).1).trans
      rfl,
    rfl,
    (isObservationViable_map_present
      [(7, []), (3, [Example.passing, Example.failing])] 7 []
      Example.states Example.times (by simp [StdMap.find])).2.2 rfl⟩

/-! ### The minimum elevation angle calculator -/

/-- Claim C5. A minimum elevation angle calculator with no configured pairs
returns true for all states and times, the empty ones included, and throws
nothing. -/
theorem MinimumElevationAngleCalculator.isObservationViable_no_pairs
    {R P : Type} [Sub R] (isTargetInView : R → Vector3 R → P → R → Bool)
    (minimumElevationAngle : R) (pointingAngleCalculator : P)
    (states : List (Vector6 R)) (times : List R) :
    (MinimumElevationAngleCalculator.mk [] minimumElevationAngle
        pointingAngleCalculator).isObservationViable isTargetInView states
          times = .ok true ∧
      (MinimumElevationAngleCalculator.mk [] minimumElevationAngle
        pointingAngleCalculator).isObservationViable isTargetInView [] [] =
          .ok true :=
  ⟨rfl, rfl⟩

/-! #### The loop over the configured pairs -/

theorem vectorAt_of_lt {α : Type} (xs : List α) (i : Nat)
    (h : i < xs.length) : vectorAt xs i = .ok (xs.get ⟨i, h⟩) := by
  simp [vectorAt, List.getElem?_eq_getElem h]

theorem vectorAt_of_le {α : Type} (xs : List α) (i : Nat)
    (h : xs.length ≤ i) : vectorAt xs i = .error .out_of_range := by
  simp [vectorAt, List.getElem?_eq_none h]

theorem MinimumElevationAngleCalculator.targetInView_in_range
    {R P : Type} [Sub R] (isTargetInView : R → Vector3 R → P → R → Bool)
    (c : MinimumElevationAngleCalculator R P)
    (states : List (Vector6 R)) (times : List R) (idx : Nat × Nat)
    (h : IndicesInRange states times idx) :
    c.targetInView isTargetInView states times idx =
      .ok (c.pairTest isTargetInView states times idx h) := by
  unfold MinimumElevationAngleCalculator.targetInView
  rw [vectorAt_of_lt times idx.1 h.1, vectorAt_of_lt states idx.2 h.2.2,
    vectorAt_of_lt states idx.1 h.2.1]
  rfl

theorem MinimumElevationAngleCalculator.targetInView_out_of_range
    {R P : Type} [Sub R] (isTargetInView : R → Vector3 R → P → R → Bool)
    (c : MinimumElevationAngleCalculator R P)
    (states : List (Vector6 R)) (times : List R) (idx : Nat × Nat)
    (h : ¬ IndicesInRange states times idx) :
    c.targetInView isTargetInView states times idx = .error .out_of_range := by
  unfold MinimumElevationAngleCalculator.targetInView
  by_cases h1 : idx.1 < times.length
  · by_cases h2 : idx.2 < states.length
    · by_cases h3 : idx.1 < states.length
      · exact absurd ⟨h1, h3, h2⟩ h
      · rw [vectorAt_of_lt times idx.1 h1, vectorAt_of_lt states idx.2 h2,
          vectorAt_of_le states idx.1 (Nat.le_of_not_lt h3)]
    · rw [vectorAt_of_lt times idx.1 h1,
        vectorAt_of_le states idx.2 (Nat.le_of_not_lt h2)]
  · rw [vectorAt_of_le times idx.1 (Nat.le_of_not_lt h1)]

theorem MinimumElevationAngleCalculator.checkLinks_in_range
    {R P : Type} [Sub R] (isTargetInView : R → Vector3 R → P → R → Bool)
    (c : MinimumElevationAngleCalculator R P)
    (states : List (Vector6 R)) (times : List R) (pairs : List (Nat × Nat))
    (flag : Bool) (h : ∀ idx ∈ pairs, IndicesInRange states times idx) :
    c.checkLinks isTargetInView states times pairs flag =
      .ok (flag && (pairs.pmap
        (fun idx hidx => c.pairTest isTargetInView states times idx hidx)
        h).all id) := by
  induction pairs generalizing flag with
  | nil => simp [MinimumElevationAngleCalculator.checkLinks]
  | cons idx rest ih =>
    have hidx : IndicesInRange states times idx :=
      h idx (List.mem_cons_self _ _)
    have hrest : ∀ i ∈ rest, IndicesInRange states times i := fun i hi =>
      h i (List.mem_cons_of_mem _ hi)
    rw [MinimumElevationAngleCalculator.checkLinks,
      c.targetInView_in_range isTargetInView states times idx hidx]
    cases hb : c.pairTest isTargetInView states times idx hidx with
    | false => simp [ih false hrest, hb]
    | true => simp [ih flag hrest, hb]

theorem MinimumElevationAngleCalculator.checkLinks_out_of_range
    {R P : Type} [Sub R] (isTargetInView : R → Vector3 R → P → R → Bool)
    (c : MinimumElevationAngleCalculator R P)
    (states : List (Vector6 R)) (times : List R) (pairs : List (Nat × Nat))
    (flag : Bool) (h : ∃ idx ∈ pairs, ¬ IndicesInRange states times idx) :
    c.checkLinks isTargetInView states times pairs flag =
      .error .out_of_range := by
  induction pairs generalizing flag with
  | nil => obtain ⟨idx, hmem, _⟩ := h; cases hmem
  | cons idx rest ih =>
    rw [MinimumElevationAngleCalculator.checkLinks]
    by_cases hidx : IndicesInRange states times idx
    · have hrest : ∃ i ∈ rest, ¬ IndicesInRange states times i := by
        obtain ⟨i, hmem, hi⟩ := h
        rcases List.mem_cons.mp hmem with heq | hmem
        · exact absurd (heq ▸ hidx) hi
        · exact ⟨i, hmem, hi⟩
      rw [c.targetInView_in_range isTargetInView states times idx hidx]
      cases c.pairTest isTargetInView states times idx hidx with
      | false => simpa using ih false hrest
      | true => simpa using ih flag hrest
    · rw [c.targetInView_out_of_range isTargetInView states times idx hidx]

/-- Claim C2. When all configured indices are in range, the minimum elevation
angle calculator returns the AND, over all configured pairs, of the per-pair
test `isTargetInView( times[first], position part of ( states[second] -
states[first] ), calculator, threshold )`; so one pair that fails makes the
result false whatever the other pairs give, and the result is true only if
every pair passes. -/
theorem MinimumElevationAngleCalculator.isObservationViable_eq_all
    {R P : Type} [Sub R] (isTargetInView : R → Vector3 R → P → R → Bool)
    (c : MinimumElevationAngleCalculator R P)
    (states : List (Vector6 R)) (times : List R)
    (h : ∀ idx ∈ c.linkEndIndices_, IndicesInRange states times idx) :
    c.isObservationViable isTargetInView states times =
        .ok ((c.linkEndIndices_.pmap
          (fun idx hidx => c.pairTest isTargetInView states times idx hidx)
          h).all id) ∧
      ((∃ idx, ∃ hmem : idx ∈ c.linkEndIndices_,
          c.pairTest isTargetInView states times idx (h idx hmem) = false) →
        c.isObservationViable isTargetInView states times = .ok false) ∧
      (c.isObservationViable isTargetInView states times = .ok true →
        ∀ idx, ∀ hmem : idx ∈ c.linkEndIndices_,
          c.pairTest isTargetInView states times idx (h idx hmem) = true) := by
  have hmain : c.isObservationViable isTargetInView states times =
      .ok ((c.linkEndIndices_.pmap
        (fun idx hidx => c.pairTest isTargetInView states times idx hidx)
        h).all id) := by
    unfold MinimumElevationAngleCalculator.isObservationViable
    rw [c.checkLinks_in_range isTargetInView states times c.linkEndIndices_
      true h]
    simp
  refine ⟨hmain, ?_, ?_⟩
  · rintro ⟨idx, hmem, hfail⟩
    rw [hmain]
    congr 1
    rw [Bool.eq_false_iff]
    intro hall
    rw [List.all_eq_true] at hall
    have := hall _ (List.mem_pmap.mpr ⟨idx, hmem, rfl⟩)
    simp [hfail] at this
  · intro htrue idx hmem
    rw [hmain] at htrue
    have hall := Except.ok.inj htrue
    rw [List.all_eq_true] at hall
    simpa using hall _ (List.mem_pmap.mpr ⟨idx, hmem, rfl⟩)

/-- Evaluation of claim C2: two pairs in range, the first fails and the
second passes, and the result is false. -/
theorem MinimumElevationAngleCalculator.isObservationViable_eq_all_witness :
    (∀ idx ∈ Example.twoPairs.linkEndIndices_,
      IndicesInRange Example.states Example.times idx) ∧
    Example.twoPairs.pairTest isTargetInView Example.states Example.times
      (1, 0) ⟨by decide, by decide, by decide⟩ = true ∧
    Example.twoPairs.isObservationViable isTargetInView Example.states
      Example.times = .ok false :=
  have hrange : ∀ idx ∈ Example.twoPairs.linkEndIndices_,
      IndicesInRange Example.states Example.times idx := by
    intro idx hmem
    simp only [Example.twoPairs, List.mem_cons, List.mem_singleton,
      List.not_mem_nil, or_false] at hmem
    rcases hmem with rfl | rfl <;>
      exact ⟨by decide, by decide, by decide⟩
  ⟨hrange, rfl,
    (MinimumElevationAngleCalculator.isObservationViable_eq_all isTargetInView
      Example.twoPairs Example.states Example.times hrange).2.1
      ⟨(0, 1), by simp [Example.twoPairs], rfl⟩⟩

/-- Claim C7. The minimum elevation angle calculator ends with
`std::out_of_range` instead of returning a boolean if and only if some
configured pair has `first` not below the number of times, `first` not below
the number of states, or `second` not below the number of states.  Every
pair is evaluated, so the exception is raised wherever the offending pair
stands in the list, also after a pair that failed the elevation test; when
all indices are in range a boolean is returned. -/
theorem MinimumElevationAngleCalculator.isObservationViable_out_of_range_iff
    {R P : Type} [Sub R] (isTargetInView : R → Vector3 R → P → R → Bool)
    (c : MinimumElevationAngleCalculator R P)
    (states : List (Vector6 R)) (times : List R) :
    (c.isObservationViable isTargetInView states times =
        .error .out_of_range ↔
      ∃ idx ∈ c.linkEndIndices_,
        times.length ≤ idx.1 ∨ states.length ≤ idx.1 ∨
          states.length ≤ idx.2) ∧
    ((∃ b : Bool, c.isObservationViable isTargetInView states times = .ok b) ↔
      ∀ idx ∈ c.linkEndIndices_,
        idx.1 < times.length ∧ idx.1 < states.length ∧
          idx.2 < states.length) ∧
    (∀ (earlier later : List (Nat × Nat)) (bad : Nat × Nat),
      c.linkEndIndices_ = earlier ++ bad :: later →
      (times.length ≤ bad.1 ∨ states.length ≤ bad.1 ∨
        states.length ≤ bad.2) →
      c.isObservationViable isTargetInView states times =
        .error .out_of_range) := by
  have hnot : ∀ idx : Nat × Nat,
      (times.length ≤ idx.1 ∨ states.length ≤ idx.1 ∨ states.length ≤ idx.2) ↔
        ¬ IndicesInRange states times idx := by
    intro idx
    unfold IndicesInRange
    omega
  have hbad : (∃ idx ∈ c.linkEndIndices_,
        times.length ≤ idx.1 ∨ states.length ≤ idx.1 ∨
          states.length ≤ idx.2) →
      c.isObservationViable isTargetInView states times =
        .error .out_of_range := by
    rintro ⟨idx, hmem, hidx⟩
    exact c.checkLinks_out_of_range isTargetInView states times
      c.linkEndIndices_ true ⟨idx, hmem, (hnot idx).mp hidx⟩
  have hgood : (∀ idx ∈ c.linkEndIndices_,
        IndicesInRange states times idx) →
      ∃ b : Bool, c.isObservationViable isTargetInView states times =
        .ok b := fun h =>
    ⟨_, c.checkLinks_in_range isTargetInView states times c.linkEndIndices_
      true h⟩
  refine ⟨⟨?_, hbad⟩, ⟨?_, hgood⟩, ?_⟩
  · intro herr
    by_contra hnone
    have hall : ∀ idx ∈ c.linkEndIndices_,
        IndicesInRange states times idx := by
      intro idx hmem
      by_contra hidx
      exact hnone ⟨idx, hmem, (hnot idx).mpr hidx⟩
    obtain ⟨b, hb⟩ := hgood hall
    rw [hb] at herr
    cases herr
  · rintro ⟨b, hb⟩ idx hmem
    by_contra hidx
    rw [hbad ⟨idx, hmem, (hnot idx).mpr hidx⟩] at hb
    cases hb
  · intro earlier later bad hsplit hidx
    exact hbad ⟨bad, by simp [hsplit], hidx⟩

/-- Evaluation of claim C7: the first pair fails the elevation test, the
second has a state index out of range, and the exception is raised; with the
second pair removed the result is the boolean false. -/
theorem MinimumElevationAngleCalculator.isObservationViable_out_of_range_iff_witness :
    (∃ idx ∈ Example.failingThenOutOfRange.linkEndIndices_,
      Example.times.length ≤ idx.1 ∨ Example.states.length ≤ idx.1 ∨
        Example.states.length ≤ idx.2) ∧
    Example.failingThenOutOfRange.targetInView isTargetInView Example.states
      Example.times (0, 1) = .ok false ∧
    Example.failingThenOutOfRange.isObservationViable isTargetInView
      Example.states Example.times = .error .out_of_range ∧
    (Example.minimumElevation 20).isObservationViable isTargetInView
      Example.states Example.times = .ok false :=
  ⟨⟨(0, 2), by simp [Example.failingThenOutOfRange], by decide⟩, rfl,
    (MinimumElevationAngleCalculator.isObservationViable_out_of_range_iff
      isTargetInView Example.failingThenOutOfRange Example.states
      Example.times).1.mpr
      ⟨(0, 2), by simp [Example.failingThenOutOfRange], by decide⟩,
    rfl⟩

/-- Claim C6. With the single pair `( 0, 1 )` and a threshold of 10 degrees,
on at least two states and one time, the result is decided by the elevation,
at `times[0]`, of the position part of `states[1] - states[0]`: it is true
exactly when that elevation exceeds 10, hence false at 5 degrees and true at
15 degrees. -/
theorem MinimumElevationAngleCalculator.isObservationViable_single_pair
    {R : Type} [LinearOrderedRing R] (pointing : PointingAnglesCalculator R)
    (station target : Vector6 R) (time : R)
    (moreStates : List (Vector6 R)) (moreTimes : List R) :
    (MinimumElevationAngleCalculator.mk [(0, 1)] 10
        pointing).isObservationViable isTargetInView
        (station :: target :: moreStates) (time :: moreTimes) =
      .ok (decide (10 < pointing.calculateElevationAngle
        (fun i => target ⟨i.val, by omega⟩ - station ⟨i.val, by omega⟩)
        time)) ∧
    (pointing.calculateElevationAngle
        (fun i => target ⟨i.val, by omega⟩ - station ⟨i.val, by omega⟩)
        time = 5 →
      (MinimumElevationAngleCalculator.mk [(0, 1)] 10
        pointing).isObservationViable isTargetInView
        (station :: target :: moreStates) (time :: moreTimes) = .ok false) ∧
    (pointing.calculateElevationAngle
        (fun i => target ⟨i.val, by omega⟩ - station ⟨i.val, by omega⟩)
        time = 15 →
      (MinimumElevationAngleCalculator.mk [(0, 1)] 10
        pointing).isObservationViable isTargetInView
        (station :: target :: moreStates) (time :: moreTimes) = .ok true) := by
  have hseg : segment (target - station) 0 =
      fun i : Fin 3 => target ⟨i.val, by omega⟩ - station ⟨i.val, by omega⟩ := by
    funext i
    simp [segment]
  have hmain : (MinimumElevationAngleCalculator.mk [(0, 1)] 10
        pointing).isObservationViable isTargetInView
        (station :: target :: moreStates) (time :: moreTimes) =
      .ok (decide (10 < pointing.calculateElevationAngle
        (fun i => target ⟨i.val, by omega⟩ - station ⟨i.val, by omega⟩)
        time)) := by
    simp only [MinimumElevationAngleCalculator.isObservationViable,
      MinimumElevationAngleCalculator.checkLinks,
      MinimumElevationAngleCalculator.targetInView, vectorAt,
      List.getElem?_cons_zero, List.getElem?_cons_succ, hseg, isTargetInView]
    by_cases hlt : 10 < pointing.calculateElevationAngle
        (fun i => target ⟨i.val, by omega⟩ - station ⟨i.val, by omega⟩) time
    · simp [hlt]
    · simp [hlt]
  refine ⟨hmain, ?_, ?_⟩
  · intro h5
    rw [hmain, h5]
    congr 1
    simp only [decide_eq_false_iff_not, not_lt]
    norm_num
  · intro h15
    rw [hmain, h15]
    congr 1
    simp only [decide_eq_true_eq]
    norm_num

/-- Evaluation of claim C6 on integers: the relative position of state 1
with respect to state 0 has elevation 15 at time 0, above 10.  The opposite
difference would have elevation -15, and the difference taken at
`times[1]` would not have elevation 15 either. -/
theorem MinimumElevationAngleCalculator.isObservationViable_single_pair_witness :
    Example.pointing.calculateElevationAngle
        (fun i => Example.state 1 2 15 0 0 0 ⟨i.val, by omega⟩ -
          Example.state 0 0 0 7 7 7 ⟨i.val, by omega⟩) 0 = 15 ∧
    (MinimumElevationAngleCalculator.mk [(0, 1)] 10
        Example.pointing).isObservationViable isTargetInView
        (Example.state 0 0 0 7 7 7 :: Example.state 1 2 15 0 0 0 :: [])
        (0 :: [100]) = .ok true :=
  ⟨rfl,
    (MinimumElevationAngleCalculator.isObservationViable_single_pair
      Example.pointing (Example.state 0 0 0 7 7 7)
      (Example.state 1 2 15 0 0 0) 0 [] [100]).2.2 rfl⟩

theorem segment_sub {R : Type} [Sub R] (a b : Vector6 R) (start : Fin 4) :
    segment (a - b) start = segment a start - segment b start := rfl

theorem MinimumElevationAngleCalculator.targetInView_congr
    {R P : Type} [Sub R] (isTargetInView : R → Vector3 R → P → R → Bool)
    (c : MinimumElevationAngleCalculator R P)
    (states₁ states₂ : List (Vector6 R)) (times₁ times₂ : List R)
    (idx : Nat × Nat)
    (htime : times₁[idx.1]? = times₂[idx.1]?)
    (hfirst : (states₁[idx.1]?).map (fun s => segment s 0) =
      (states₂[idx.1]?).map (fun s => segment s 0))
    (hsecond : (states₁[idx.2]?).map (fun s => segment s 0) =
      (states₂[idx.2]?).map (fun s => segment s 0)) :
    c.targetInView isTargetInView states₁ times₁ idx =
      c.targetInView isTargetInView states₂ times₂ idx := by
  unfold MinimumElevationAngleCalculator.targetInView vectorAt
  rw [htime]
  cases times₂[idx.1]? with
  | none => rfl
  | some time =>
    cases h1 : states₁[idx.2]? with
    | none =>
      cases h2 : states₂[idx.2]? with
      | none => rfl
      | some t₂ => rw [h1, h2] at hsecond; cases hsecond
    | some t₁ =>
      cases h2 : states₂[idx.2]? with
      | none => rw [h1, h2] at hsecond; cases hsecond
      | some t₂ =>
        rw [h1, h2] at hsecond
        have ht : segment t₁ 0 = segment t₂ 0 := Option.some.inj hsecond
        cases h3 : states₁[idx.1]? with
        | none =>
          cases h4 : states₂[idx.1]? with
          | none => rfl
          | some s₂ => rw [h3, h4] at hfirst; cases hfirst
        | some s₁ =>
          cases h4 : states₂[idx.1]? with
          | none => rw [h3, h4] at hfirst; cases hfirst
          | some s₂ =>
            rw [h3, h4] at hfirst
            have hs : segment s₁ 0 = segment s₂ 0 := Option.some.inj hfirst
            simp only [segment_sub, ht, hs]

/-- Claim C10. The result of the minimum elevation angle calculator depends
only on the position entries (the first three) of the states at configured
indices and on the times at configured first indices: two inputs that agree
there, and differ in velocity entries, in states or times at other indices,
give the same result. -/
theorem MinimumElevationAngleCalculator.isObservationViable_congr
    {R P : Type} [Sub R] (isTargetInView : R → Vector3 R → P → R → Bool)
    (c : MinimumElevationAngleCalculator R P)
    (states₁ states₂ : List (Vector6 R)) (times₁ times₂ : List R)
    (h : ∀ idx ∈ c.linkEndIndices_,
      times₁[idx.1]? = times₂[idx.1]? ∧
      (states₁[idx.1]?).map (fun s => segment s 0) =
        (states₂[idx.1]?).map (fun s => segment s 0) ∧
      (states₁[idx.2]?).map (fun s => segment s 0) =
        (states₂[idx.2]?).map (fun s => segment s 0)) :
    c.isObservationViable isTargetInView states₁ times₁ =
      c.isObservationViable isTargetInView states₂ times₂ := by
  unfold MinimumElevationAngleCalculator.isObservationViable
  generalize true = flag
  generalize c.linkEndIndices_ = pairs at h
  induction pairs generalizing flag with
  | nil => rfl
  | cons idx rest ih =>
    obtain ⟨htime, hfirst, hsecond⟩ := h idx (List.mem_cons_self _ _)
    have hrest := fun i hi => h i (List.mem_cons_of_mem idx hi)
    simp only [MinimumElevationAngleCalculator.checkLinks,
      c.targetInView_congr isTargetInView states₁ states₂ times₁ times₂ idx
        htime hfirst hsecond, ih false hrest, ih flag hrest]

/-- Evaluation of claim C10: the second input changes all velocity entries,
appends a third state, changes `times[1]` and appends a third time; the pair
`( 0, 1 )` reads none of these and the result is the same. -/
theorem MinimumElevationAngleCalculator.isObservationViable_congr_witness :
    (Example.minimumElevation 10).isObservationViable isTargetInView
        [Example.state 0 0 0 7 7 7, Example.state 1 2 15 0 0 0] [0, 100] =
      (Example.minimumElevation 10).isObservationViable isTargetInView
        [Example.state 0 0 0 1 2 3, Example.state 1 2 15 4 5 6,
          Example.state 9 9 9 9 9 9] [0, 200, 300] ∧
    (Example.minimumElevation 10).isObservationViable isTargetInView
        [Example.state 0 0 0 7 7 7, Example.state 1 2 15 0 0 0] [0, 100] =
      .ok true :=
  ⟨MinimumElevationAngleCalculator.isObservationViable_congr isTargetInView
    (Example.minimumElevation 10)
    [Example.state 0 0 0 7 7 7, Example.state 1 2 15 0 0 0]
    [Example.state 0 0 0 1 2 3, Example.state 1 2 15 4 5 6,
      Example.state 9 9 9 9 9 9] [0, 100] [0, 200, 300]
    (by
      intro idx hmem
      simp only [Example.minimumElevation, List.mem_singleton] at hmem
      subst hmem
      refine ⟨rfl, ?_, ?_⟩
      · simp only [List.getElem?_cons_zero, Option.map_some']
        congr 1
        funext i
        fin_cases i <;> rfl
      · simp only [List.getElem?_cons_succ, List.getElem?_cons_zero,
          Option.map_some']
        congr 1
        funext i
        fin_cases i <;> rfl),
    rfl⟩

/-! ### The list form -/

theorem isObservationViable_vector_append {R : Type}
    (states : List (Vector6 R)) (times : List R)
    (A B : List (ObservationViabilityCalculator R)) :
    isObservationViable_vector states times (A ++ B) =
      lazyAnd (isObservationViable_vector states times A)
        (isObservationViable_vector states times B) := by
  induction A with
  | nil => rfl
  | cons c rest ih =>
    rw [List.cons_append, isObservationViable_vector_cons,
      isObservationViable_vector_cons, ih]
    cases c.isObservationViable states times with
    | error e => rfl
    | ok b => cases b <;> rfl

theorem isObservationViable_vector_eq_true_iff {R : Type}
    (states : List (Vector6 R)) (times : List R)
    (l : List (ObservationViabilityCalculator R)) :
    isObservationViable_vector states times l = .ok true ↔
      ∀ c ∈ l, c.isObservationViable states times = .ok true := by
  induction l with
  | nil => simp [isObservationViable_vector_nil]
  | cons c rest ih =>
    rw [isObservationViable_vector_cons, List.forall_mem_cons, ← ih]
    cases hc : c.isObservationViable states times with
    | error e => simp [lazyAnd]
    | ok b => cases b <;> simp [lazyAnd]

/-- The list form against the full evaluation started with any flag: both
return booleans (the full evaluation the AND with the flag), or both throw
the same exception, or the list form returns false where the full evaluation
throws. -/
theorem isObservationViable_vector_cases {R : Type}
    (states : List (Vector6 R)) (times : List R)
    (l : List (ObservationViabilityCalculator R)) (flag : Bool) :
    (∃ b, isObservationViable_vector states times l = .ok b ∧
        evaluateAllAndConjoin states times l flag = .ok (flag && b)) ∨
      (∃ e, isObservationViable_vector states times l = .error e ∧
        evaluateAllAndConjoin states times l flag = .error e) ∨
      (isObservationViable_vector states times l = .ok false ∧
        ∃ e, evaluateAllAndConjoin states times l flag = .error e) := by
  induction l generalizing flag with
  | nil => exact Or.inl ⟨true, rfl, by simp [evaluateAllAndConjoin]⟩
  | cons c rest ih =>
    rw [isObservationViable_vector_cons, evaluateAllAndConjoin]
    cases hc : c.isObservationViable states times with
    | error e => exact Or.inr (Or.inl ⟨e, rfl, rfl⟩)
    | ok bc =>
      rcases ih (flag && bc) with ⟨b, hv, he⟩ | ⟨e, hv, he⟩ | ⟨hv, e, he⟩
      · cases bc
        · exact Or.inl ⟨false, rfl, by simpa using he⟩
        · exact Or.inl ⟨b, by simpa [lazyAnd] using hv, by simpa using he⟩
      · cases bc
        · exact Or.inr (Or.inr ⟨rfl, e, he⟩)
        · exact Or.inr (Or.inl ⟨e, by simpa [lazyAnd] using hv, he⟩)
      · cases bc
        · exact Or.inr (Or.inr ⟨rfl, e, he⟩)
        · exact Or.inr (Or.inr ⟨by simpa [lazyAnd] using hv, e, he⟩)

theorem evaluateAllAndConjoin_ok {R : Type}
    (states : List (Vector6 R)) (times : List R)
    (l : List (ObservationViabilityCalculator R)) (flag : Bool)
    (h : ∀ c ∈ l, ∃ b, c.isObservationViable states times = .ok b) :
    ∃ b, evaluateAllAndConjoin states times l flag = .ok b := by
  induction l generalizing flag with
  | nil => exact ⟨flag, rfl⟩
  | cons c rest ih =>
    obtain ⟨bc, hc⟩ := h c (List.mem_cons_self _ _)
    rw [evaluateAllAndConjoin, hc]
    exact ih _ (fun d hd => h d (List.mem_cons_of_mem _ hd))

theorem isObservationViable_vector_ok {R : Type}
    (states : List (Vector6 R)) (times : List R)
    (l : List (ObservationViabilityCalculator R))
    (h : ∀ c ∈ l, ∃ b, c.isObservationViable states times = .ok b) :
    ∃ b, isObservationViable_vector states times l = .ok b := by
  obtain ⟨b, hb⟩ := evaluateAllAndConjoin_ok states times l true h
  rcases isObservationViable_vector_cases states times l true with
    ⟨b', hv, _⟩ | ⟨e, _, he⟩ | ⟨hv, _⟩
  · exact ⟨b', hv⟩
  · rw [hb] at he; cases he
  · exact ⟨false, hv⟩

/-- Claim C3, as stated, fails: on a list whose first calculator returns
false and whose second throws, the list form breaks out and returns false,
while evaluating every calculator without short-circuit throws. -/
theorem isObservationViable_vector_short_circuit_differs :
    isObservationViable_vector Example.states Example.times
        [Example.failing, Example.outOfRange] = .ok false ∧
      evaluateAllAndConjoin Example.states Example.times
        [Example.failing, Example.outOfRange] true = .error .out_of_range :=
  ⟨rfl, rfl⟩

/-- Claim C3, amended. On every list and all states and times the list form
returns true exactly when every calculator of the list returns true, and it
returns true on the empty list.  When no calculator of the list throws, the
list form returns what the evaluation of every calculator without
short-circuit, AND-ed, returns; in general the two differ only where the list
form returns false and the full evaluation throws. -/
theorem isObservationViable_vector_eq_evaluateAll {R : Type}
    (states : List (Vector6 R)) (times : List R)
    (l : List (ObservationViabilityCalculator R)) :
    ((∀ c ∈ l, ∃ b, c.isObservationViable states times = .ok b) →
        isObservationViable_vector states times l =
          evaluateAllAndConjoin states times l true) ∧
      (isObservationViable_vector states times l = .ok true ↔
        ∀ c ∈ l, c.isObservationViable states times = .ok true) ∧
      isObservationViable_vector states times
        ([] : List (ObservationViabilityCalculator R)) = .ok true ∧
      (isObservationViable_vector states times l =
          evaluateAllAndConjoin states times l true ∨
        (isObservationViable_vector states times l = .ok false ∧
          ∃ e, evaluateAllAndConjoin states times l true = .error e)) := by
  have hcases : isObservationViable_vector states times l =
        evaluateAllAndConjoin states times l true ∨
      (isObservationViable_vector states times l = .ok false ∧
        ∃ e, evaluateAllAndConjoin states times l true = .error e) := by
    rcases isObservationViable_vector_cases states times l true with
      ⟨b, hv, he⟩ | ⟨e, hv, he⟩ | h
    · exact Or.inl (by rw [hv, he, Bool.true_and])
    · exact Or.inl (by rw [hv, he])
    · exact Or.inr h
  refine ⟨?_, isObservationViable_vector_eq_true_iff states times l, rfl,
    hcases⟩
  intro h
  rcases hcases with heq | ⟨_, e, he⟩
  · exact heq
  · obtain ⟨b, hb⟩ := evaluateAllAndConjoin_ok states times l true h
    rw [hb] at he
    cases he

/-- Evaluation of the amended claim C3: no calculator of the list throws, the
second returns false, and both evaluations return false. -/
theorem isObservationViable_vector_eq_evaluateAll_witness :
    (∀ c ∈ [Example.passing, Example.failing, Example.passing],
      ∃ b, c.isObservationViable Example.states Example.times = .ok b) ∧
    isObservationViable_vector Example.states Example.times
        [Example.passing, Example.failing, Example.passing] =
      evaluateAllAndConjoin Example.states Example.times
        [Example.passing, Example.failing, Example.passing] true ∧
    evaluateAllAndConjoin Example.states Example.times
        [Example.passing, Example.failing, Example.passing] true = .ok false :=
  have hbool : ∀ c ∈ [Example.passing, Example.failing, Example.passing],
      ∃ b, c.isObservationViable Example.states Example.times = .ok b := by
    intro c hmem
    simp only [List.mem_cons, List.mem_singleton, List.not_mem_nil,
      or_false] at hmem
    rcases hmem with rfl | rfl | rfl
    · exact ⟨true, rfl⟩
    · exact ⟨false, rfl⟩
    · exact ⟨true, rfl⟩
  ⟨hbool,
    (isObservationViable_vector_eq_evaluateAll Example.states Example.times
      [Example.passing, Example.failing, Example.passing]).1 hbool,
    rfl⟩

theorem lazyAnd_assoc (a b c : Except Exception Bool) :
    lazyAnd (lazyAnd a b) c = lazyAnd a (lazyAnd b c) := by
  cases a with
  | error e => rfl
  | ok x => cases x <;> rfl

/-- Claim C8, as stated, fails: swapping a calculator that returns false with
one that throws changes the result of the list form from false to the
exception. -/
theorem isObservationViable_vector_swap_differs :
    List.Perm [Example.failing, Example.outOfRange]
        [Example.outOfRange, Example.failing] ∧
      isObservationViable_vector Example.states Example.times
        [Example.failing, Example.outOfRange] = .ok false ∧
      isObservationViable_vector Example.states Example.times
        [Example.outOfRange, Example.failing] = .error .out_of_range :=
  ⟨List.Perm.swap _ _ _, rfl, rfl⟩

/-- Claim C8, amended. For every list in which no calculator throws on the
given states and times, the list form returns the same result on every
permutation of the list; and for every list, whether the list form returns
true is the same on every permutation. -/
theorem isObservationViable_vector_perm {R : Type}
    (states : List (Vector6 R)) (times : List R)
    (l l' : List (ObservationViabilityCalculator R)) (hperm : List.Perm l l') :
    ((∀ c ∈ l, ∃ b, c.isObservationViable states times = .ok b) →
        isObservationViable_vector states times l' =
          isObservationViable_vector states times l) ∧
      (isObservationViable_vector states times l' = .ok true ↔
        isObservationViable_vector states times l = .ok true) := by
  have htrue : isObservationViable_vector states times l' = .ok true ↔
      isObservationViable_vector states times l = .ok true := by
    rw [isObservationViable_vector_eq_true_iff,
      isObservationViable_vector_eq_true_iff]
    exact ⟨fun h c hc => h c (hperm.mem_iff.mp hc),
      fun h c hc => h c (hperm.mem_iff.mpr hc)⟩
  refine ⟨?_, htrue⟩
  intro h
  have h' : ∀ c ∈ l', ∃ b, c.isObservationViable states times = .ok b :=
    fun c hc => h c (hperm.mem_iff.mpr hc)
  obtain ⟨b, hb⟩ := isObservationViable_vector_ok states times l h
  obtain ⟨b', hb'⟩ := isObservationViable_vector_ok states times l' h'
  rw [hb, hb']
  cases b <;> cases b'
  · rfl
  · rw [htrue.mp hb'] at hb; cases hb
  · rw [htrue.mpr hb] at hb'; cases hb'
  · rfl

/-- Evaluation of the amended claim C8: a passing and a failing calculator,
in both orders. -/
theorem isObservationViable_vector_perm_witness :
    List.Perm [Example.passing, Example.failing]
        [Example.failing, Example.passing] ∧
    (∀ c ∈ [Example.passing, Example.failing],
      ∃ b, c.isObservationViable Example.states Example.times = .ok b) ∧
    isObservationViable_vector Example.states Example.times
        [Example.failing, Example.passing] =
      isObservationViable_vector Example.states Example.times
        [Example.passing, Example.failing] ∧
    isObservationViable_vector Example.states Example.times
        [Example.passing, Example.failing] = .ok false :=
  have hbool : ∀ c ∈ [Example.passing, Example.failing],
      ∃ b, c.isObservationViable Example.states Example.times = .ok b := by
    intro c hmem
    simp only [List.mem_cons, List.mem_singleton, List.not_mem_nil,
      or_false] at hmem
    rcases hmem with rfl | rfl
    · exact ⟨true, rfl⟩
    · exact ⟨false, rfl⟩
  ⟨List.Perm.swap _ _ _, hbool,
    (isObservationViable_vector_perm Example.states Example.times
      [Example.passing, Example.failing] [Example.failing, Example.passing]
      (List.Perm.swap _ _ _)).1 hbool,
    rfl⟩

/-- Claim C9, as stated, fails: with `A` a calculator that returns false, `B`
one that throws and `C` empty, the list form on the concatenation returns
false, while the result on `B` taken separately is the exception
`std::out_of_range`, so the AND of the three separate results, in either
grouping, is that exception and not false. -/
theorem isObservationViable_vector_concat_differs :
    isObservationViable_vector Example.states Example.times
        (([Example.failing] ++ [Example.outOfRange]) ++ []) = .ok false ∧
      isObservationViable_vector Example.states Example.times
        [Example.failing] = .ok false ∧
      isObservationViable_vector Example.states Example.times
        [Example.outOfRange] = .error .out_of_range ∧
      isObservationViable_vector Example.states Example.times [] = .ok true ∧
      strictAnd
        (isObservationViable_vector Example.states Example.times
          [Example.failing])
        (strictAnd
          (isObservationViable_vector Example.states Example.times
            [Example.outOfRange])
          (isObservationViable_vector Example.states Example.times [])) =
        .error .out_of_range ∧
      strictAnd
        (strictAnd
          (isObservationViable_vector Example.states Example.times
            [Example.failing])
          (isObservationViable_vector Example.states Example.times
            [Example.outOfRange]))
        (isObservationViable_vector Example.states Example.times []) =
        .error .out_of_range :=
  ⟨rfl, rfl, rfl, rfl, rfl, rfl⟩

/-- Claim C9, amended. For all lists `A`, `B`, `C` and all states and times,
the list form on the concatenation does not depend on the grouping.  When
the three evaluations on `A`, `B` and `C` taken separately return booleans,
it equals the AND of the three booleans; in general it equals the AND of the
three separate results, exceptions included, except where it returns false
and a separate evaluation throws (a part that returned false hides the
exception of a later part).  In all cases it is the C++ `&&` of the three
evaluations, for either grouping of the operands. -/
theorem isObservationViable_vector_assoc {R : Type}
    (states : List (Vector6 R)) (times : List R)
    (A B C : List (ObservationViabilityCalculator R)) :
    isObservationViable_vector states times ((A ++ B) ++ C) =
        isObservationViable_vector states times (A ++ (B ++ C)) ∧
      (∀ a b c : Bool,
        isObservationViable_vector states times A = .ok a →
        isObservationViable_vector states times B = .ok b →
        isObservationViable_vector states times C = .ok c →
        isObservationViable_vector states times ((A ++ B) ++ C) =
            .ok ((a && b) && c) ∧
          isObservationViable_vector states times (A ++ (B ++ C)) =
            .ok (a && (b && c))) ∧
      (isObservationViable_vector states times (A ++ (B ++ C)) =
          strictAnd (isObservationViable_vector states times A)
            (strictAnd (isObservationViable_vector states times B)
              (isObservationViable_vector states times C)) ∨
        (isObservationViable_vector states times (A ++ (B ++ C)) =
            .ok false ∧
          ∃ e, strictAnd (isObservationViable_vector states times A)
            (strictAnd (isObservationViable_vector states times B)
              (isObservationViable_vector states times C)) = .error e)) ∧
      isObservationViable_vector states times ((A ++ B) ++ C) =
        lazyAnd
          (lazyAnd (isObservationViable_vector states times A)
            (isObservationViable_vector states times B))
          (isObservationViable_vector states times C) ∧
      isObservationViable_vector states times (A ++ (B ++ C)) =
        lazyAnd (isObservationViable_vector states times A)
          (lazyAnd (isObservationViable_vector states times B)
            (isObservationViable_vector states times C)) ∧
      isObservationViable_vector states times ((A ++ B) ++ C) =
        lazyAnd (isObservationViable_vector states times (A ++ B))
          (isObservationViable_vector states times C) ∧
      isObservationViable_vector states times (A ++ (B ++ C)) =
        lazyAnd (isObservationViable_vector states times A)
          (isObservationViable_vector states times (B ++ C)) := by
  refine ⟨by rw [List.append_assoc], ?_, ?_, ?_, ?_, ?_, ?_⟩
  · intro a b c ha hb hc
    rw [List.append_assoc]
    simp only [isObservationViable_vector_append, ha, hb, hc]
    cases a <;> cases b <;> cases c <;> exact ⟨rfl, rfl⟩
  · simp only [isObservationViable_vector_append]
    cases isObservationViable_vector states times A with
    | error e => exact Or.inl rfl
    | ok a =>
      cases isObservationViable_vector states times B with
      | error e =>
        cases a
        · exact Or.inr ⟨rfl, e, rfl⟩
        · exact Or.inl rfl
      | ok b =>
        cases isObservationViable_vector states times C with
        | error e =>
          cases a <;> cases b
          · exact Or.inr ⟨rfl, e, rfl⟩
          · exact Or.inr ⟨rfl, e, rfl⟩
          · exact Or.inr ⟨rfl, e, rfl⟩
          · exact Or.inl rfl
        | ok c => cases a <;> cases b <;> cases c <;> exact Or.inl rfl
  · simp only [isObservationViable_vector_append]
  · simp only [isObservationViable_vector_append]
  · simp only [isObservationViable_vector_append]
  · simp only [isObservationViable_vector_append]

/-- Evaluation of the amended claim C9: three one-element lists, the middle
one failing; the three results are true, false, true and the concatenation
gives false. -/
theorem isObservationViable_vector_assoc_witness :
    isObservationViable_vector Example.states Example.times
        [Example.passing] = .ok true ∧
    isObservationViable_vector Example.states Example.times
        [Example.failing] = .ok false ∧
    isObservationViable_vector Example.states Example.times
        (([Example.passing] ++ [Example.failing]) ++ [Example.passing]) =
      .ok ((true && false) && true) ∧
    isObservationViable_vector Example.states Example.times
        ([Example.passing] ++ ([Example.failing] ++ [Example.passing])) =
      .ok (true && (false && true)) :=
  ⟨rfl, rfl,
    (isObservationViable_vector_assoc Example.states Example.times
      [Example.passing] [Example.failing] [Example.passing]).2.1
      true false true rfl rfl rfl⟩

theorem isObservationViable_vectorRun_prefix {R : Type}
    (states : List (Vector6 R)) (times : List R)
    (earlier later : List (ObservationViabilityCalculator R))
    (h : ∀ p ∈ earlier, p.isObservationViable states times = .ok true) :
    isObservationViable_vectorRun states times (earlier ++ later) =
      ((isObservationViable_vectorRun states times later).1,
        earlier ++ (isObservationViable_vectorRun states times later).2) := by
  induction earlier with
  | nil => rfl
  | cons p rest ih =>
    have hp : p.isObservationViable states times = .ok true :=
      h p (List.mem_cons_self _ _)
    have hrest : ∀ q ∈ rest, q.isObservationViable states times = .ok true :=
      fun q hq => h q (List.mem_cons_of_mem _ hq)
    rw [List.cons_append, isObservationViable_vectorRun, hp]
    simp only [ih hrest, List.cons_append]

/-- Claim C14. In the list form, when the calculators before some position
return true and the one at that position returns false, the function returns
false and has called the calculators up to that position only: no later
calculator is evaluated, so a later calculator that would throw
`std::out_of_range` does not change the result.  When instead the
calculators before some position return true and the one at that position
throws (it is the first to throw and no calculator that returns false stands
before it), the exception leaves the function. -/
theorem isObservationViable_vector_first_false {R : Type}
    (states : List (Vector6 R)) (times : List R)
    (earlier later : List (ObservationViabilityCalculator R))
    (c : ObservationViabilityCalculator R)
    (h : ∀ p ∈ earlier, p.isObservationViable states times = .ok true) :
    (c.isObservationViable states times = .ok false →
        isObservationViable_vector states times (earlier ++ c :: later) =
            .ok false ∧
          (isObservationViable_vectorRun states times
            (earlier ++ c :: later)).2 = earlier ++ [c]) ∧
      (∀ e, c.isObservationViable states times = .error e →
        isObservationViable_vector states times (earlier ++ c :: later) =
            .error e ∧
          (isObservationViable_vectorRun states times
            (earlier ++ c :: later)).2 = earlier ++ [c]) := by
  have hrun := isObservationViable_vectorRun_prefix states times earlier
    (c :: later) h
  refine ⟨?_, ?_⟩
  · intro hc
    unfold isObservationViable_vector
    rw [hrun, isObservationViable_vectorRun, hc]
    exact ⟨rfl, rfl⟩
  · intro e hc
    unfold isObservationViable_vector
    rw [hrun, isObservationViable_vectorRun, hc]
    exact ⟨rfl, rfl⟩

/-- Evaluation of claim C14: after a passing calculator, a failing one
followed by one that would throw gives false with two calls; the throwing
one followed by the failing one gives the exception. -/
theorem isObservationViable_vector_first_false_witness :
    (∀ p ∈ [Example.passing],
      p.isObservationViable Example.states Example.times = .ok true) ∧
    Example.outOfRange.isObservationViable Example.states Example.times =
      .error .out_of_range ∧
    isObservationViable_vector Example.states Example.times
      ([Example.passing] ++ Example.failing :: [Example.outOfRange]) =
        .ok false ∧
    ((isObservationViable_vectorRun Example.states Example.times
      ([Example.passing] ++ Example.failing :: [Example.outOfRange])).2).length =
        2 ∧
    isObservationViable_vector Example.states Example.times
      ([Example.passing] ++ Example.outOfRange :: [Example.failing]) =
        .error .out_of_range :=
  have hpass : ∀ p ∈ [Example.passing],
      p.isObservationViable Example.states Example.times = .ok true := by
    intro p hmem
    rw [List.mem_singleton] at hmem
    subst hmem
    rfl
  ⟨hpass, rfl,
    ((isObservationViable_vector_first_false Example.states Example.times
      [Example.passing] [Example.outOfRange] Example.failing hpass).1 rfl).1,
    rfl,
    ((isObservationViable_vector_first_false Example.states Example.times
      [Example.passing] [Example.failing] Example.outOfRange hpass).2
      .out_of_range rfl).1⟩

theorem isObservationViable_map_eq_find {R LinkEnds : Type}
    [DecidableEq LinkEnds] (states : List (Vector6 R)) (times : List R)
    (linkEnds : LinkEnds)
    (registry : StdMap LinkEnds (List (ObservationViabilityCalculator R))) :
    isObservationViable_map states times linkEnds registry =
      match StdMap.find registry linkEnds with
      | some calculators => isObservationViable_vector states times calculators
      | none => .ok true := by
  unfold isObservationViable_map isObservationViable_mapRun StdMap.count
    StdMap.at isObservationViable_vector
  cases StdMap.find registry linkEnds <;> simp

/-- Claim C15. The result of the registry form for a given `linkEnds` depends
only on the entry of the registry for that key: two registries that agree on
the key (both without it, or both holding the same list under it) give equal
results on the same states and times, whatever their other entries. -/
theorem isObservationViable_map_congr {R LinkEnds : Type}
    [DecidableEq LinkEnds] (states : List (Vector6 R)) (times : List R)
    (linkEnds : LinkEnds)
    (registry₁ registry₂ :
      StdMap LinkEnds (List (ObservationViabilityCalculator R)))
    (h : StdMap.find registry₁ linkEnds = StdMap.find registry₂ linkEnds) :
    isObservationViable_map states times linkEnds registry₁ =
      isObservationViable_map states times linkEnds registry₂ := by
  rw [isObservationViable_map_eq_find, isObservationViable_map_eq_find, h]

/-- Evaluation of claim C15: two registries hold the same list under key 3
and differ under keys 7 and 8. -/
theorem isObservationViable_map_congr_witness :
    StdMap.find ([(7, [Example.outOfRange]), (3, [Example.failing])] :
        StdMap Nat (List (ObservationViabilityCalculator Int))) 3 =
      StdMap.find [(3, [Example.failing]), (8, [Example.passing])] 3 ∧
    isObservationViable_map Example.states Example.times 3
        [(7, [Example.outOfRange]), (3, [Example.failing])] =
      isObservationViable_map Example.states Example.times 3
        [(3, [Example.failing]), (8, [Example.passing])] ∧
    isObservationViable_map Example.states Example.times 3
        [(3, [Example.failing]), (8, [Example.passing])] = .ok false :=
  ⟨by simp [StdMap.find],
    isObservationViable_map_congr Example.states Example.times 3
      [(7, [Example.outOfRange]), (3, [Example.failing])]
      [(3, [Example.failing]), (8, [Example.passing])]
      (by simp [StdMap.find]),
    rfl⟩

/-- Claim C16. Two minimum elevation angle calculators with the same
threshold and pointing-angles calculator whose lists of pairs contain the
same set of pairs give the same result on all states and times (with all
indices in range, and also otherwise); in particular the result is unchanged
by reordering the pairs and by repeating a configured pair any number of
times. -/
theorem MinimumElevationAngleCalculator.isObservationViable_same_pairs
    {R P : Type} [Sub R] (isTargetInView : R → Vector3 R → P → R → Bool)
    (pairs₁ pairs₂ : List (Nat × Nat)) (minimumElevationAngle : R)
    (pointingAngleCalculator : P)
    (states : List (Vector6 R)) (times : List R)
    (hset : ∀ idx, idx ∈ pairs₁ ↔ idx ∈ pairs₂) :
    (MinimumElevationAngleCalculator.mk pairs₁ minimumElevationAngle
        pointingAngleCalculator).isObservationViable isTargetInView states
        times =
      (MinimumElevationAngleCalculator.mk pairs₂ minimumElevationAngle
        pointingAngleCalculator).isObservationViable isTargetInView states
        times := by
  unfold MinimumElevationAngleCalculator.isObservationViable
  by_cases hall : ∀ idx ∈ pairs₁, IndicesInRange states times idx
  · have hall₂ : ∀ idx ∈ pairs₂, IndicesInRange states times idx :=
      fun idx hmem => hall idx ((hset idx).mpr hmem)
    rw [MinimumElevationAngleCalculator.checkLinks_in_range isTargetInView _
        states times pairs₁ true hall,
      MinimumElevationAngleCalculator.checkLinks_in_range isTargetInView _
        states times pairs₂ true hall₂]
    congr 2
    rw [Bool.eq_iff_iff, List.all_eq_true, List.all_eq_true]
    constructor
    · intro h b hb
      obtain ⟨idx, hmem, rfl⟩ := List.mem_pmap.mp hb
      exact h _ (List.mem_pmap.mpr ⟨idx, (hset idx).mpr hmem, rfl⟩)
    · intro h b hb
      obtain ⟨idx, hmem, rfl⟩ := List.mem_pmap.mp hb
      exact h _ (List.mem_pmap.mpr ⟨idx, (hset idx).mp hmem, rfl⟩)
  · have hbad : ∃ idx ∈ pairs₁, ¬ IndicesInRange states times idx := by
      by_contra hnone
      exact hall (fun idx hmem => by
        by_contra hidx
        exact hnone ⟨idx, hmem, hidx⟩)
    have hbad₂ : ∃ idx ∈ pairs₂, ¬ IndicesInRange states times idx := by
      obtain ⟨idx, hmem, hidx⟩ := hbad
      exact ⟨idx, (hset idx).mp hmem, hidx⟩
    rw [MinimumElevationAngleCalculator.checkLinks_out_of_range isTargetInView
        _ states times pairs₁ true hbad,
      MinimumElevationAngleCalculator.checkLinks_out_of_range isTargetInView
        _ states times pairs₂ true hbad₂]

/-- Evaluation of claim C16: the pairs `( 0, 1 )`, `( 1, 0 )` against the
same pairs in the other order with `( 0, 1 )` given three times. -/
theorem MinimumElevationAngleCalculator.isObservationViable_same_pairs_witness :
    (∀ idx, idx ∈ [((0 : Nat), (1 : Nat)), (1, 0)] ↔
      idx ∈ [((1 : Nat), (0 : Nat)), (0, 1), (0, 1), (0, 1)]) ∧
    (MinimumElevationAngleCalculator.mk [(0, 1), (1, 0)] 50
        Example.pointing).isObservationViable isTargetInView Example.states
        Example.times =
      (MinimumElevationAngleCalculator.mk [(1, 0), (0, 1), (0, 1), (0, 1)] 50
        Example.pointing).isObservationViable isTargetInView Example.states
        Example.times ∧
    (MinimumElevationAngleCalculator.mk [(1, 0), (0, 1), (0, 1), (0, 1)] 50
        Example.pointing).isObservationViable isTargetInView Example.states
        Example.times = .ok false :=
  have hset : ∀ idx, idx ∈ [((0 : Nat), (1 : Nat)), (1, 0)] ↔
      idx ∈ [((1 : Nat), (0 : Nat)), (0, 1), (0, 1), (0, 1)] := by
    intro idx
    simp only [List.mem_cons, List.mem_singleton, List.not_mem_nil, or_false]
    tauto
  ⟨hset,
    MinimumElevationAngleCalculator.isObservationViable_same_pairs
      isTargetInView [(0, 1), (1, 0)] [(1, 0), (0, 1), (0, 1), (0, 1)] 50
      Example.pointing Example.states Example.times hset,
    rfl⟩

/-! ### Frame: the calls leave the memory as it is -/

theorem MinimumElevationAngleCalculator.checkLinksIn_eq {R P : Type} [Sub R]
    (isTargetInView : R → Vector3 R → P → R → Bool)
    (pairs : List (Nat × Nat)) (flag : Bool) (memory : CalculatorMemory R P) :
    MinimumElevationAngleCalculator.checkLinksIn isTargetInView pairs flag
        memory =
      (memory.calculator.checkLinks isTargetInView memory.linkEndStates
        memory.linkEndTimes pairs flag, memory) := by
  induction pairs generalizing flag with
  | nil => rfl
  | cons idx rest ih =>
    rw [MinimumElevationAngleCalculator.checkLinksIn,
      MinimumElevationAngleCalculator.checkLinks]
    cases memory.calculator.targetInView isTargetInView memory.linkEndStates
        memory.linkEndTimes idx with
    | error e => rfl
    | ok inView => cases inView <;> simp [ih]

theorem MinimumElevationAngleCalculator.isObservationViableIn_eq
    {R P : Type} [Sub R] (isTargetInView : R → Vector3 R → P → R → Bool)
    (memory : CalculatorMemory R P) :
    MinimumElevationAngleCalculator.isObservationViableIn isTargetInView
        memory =
      (memory.calculator.isObservationViable isTargetInView
        memory.linkEndStates memory.linkEndTimes, memory) :=
  MinimumElevationAngleCalculator.checkLinksIn_eq isTargetInView _ true memory

theorem isObservationViable_vectorIn_eq {R P : Type} [Sub R]
    (isTargetInView : R → Vector3 R → P → R → Bool)
    (called remaining : List (MinimumElevationAngleCalculator R P))
    (states : List (Vector6 R)) (times : List R) :
    isObservationViable_vectorIn isTargetInView called remaining states
        times =
      (isObservationViable_vector states times
        (remaining.map (fun c => c.toCalculator isTargetInView)),
        ⟨states, times, called ++ remaining⟩) := by
  induction remaining generalizing called with
  | nil => simp [isObservationViable_vectorIn, isObservationViable_vector_nil]
  | cons c rest ih =>
    rw [isObservationViable_vectorIn,
      MinimumElevationAngleCalculator.isObservationViableIn_eq,
      List.map_cons, isObservationViable_vector_cons]
    have hc : (c.toCalculator isTargetInView).isObservationViable states
        times = c.isObservationViable isTargetInView states times := rfl
    rw [hc]
    cases c.isObservationViable isTargetInView states times with
    | error e => rfl
    | ok b =>
      cases b
      · rfl
      · simp [ih, lazyAnd]

theorem StdMap.assign_find {K V : Type} [DecidableEq K] (m : StdMap K V)
    (k : K) (v : V) (h : StdMap.find m k = some v) :
    StdMap.assign m k v = m := by
  induction m with
  | nil => rfl
  | cons entry rest ih =>
    obtain ⟨k', v'⟩ := entry
    by_cases hk : k' = k
    · simp only [StdMap.find, hk, if_true, Option.some.injEq] at h
      simp [StdMap.assign, hk, h]
    · simp only [StdMap.find, hk, if_false] at h
      simp [StdMap.assign, hk, ih h]

theorem StdMap.find_map {K V W : Type} [DecidableEq K] (m : StdMap K V)
    (f : V → W) (k : K) :
    StdMap.find (m.map (fun entry => (entry.1, f entry.2))) k =
      (StdMap.find m k).map f := by
  induction m with
  | nil => rfl
  | cons entry rest ih =>
    obtain ⟨k', v'⟩ := entry
    by_cases hk : k' = k
    · simp [StdMap.find, hk]
    · simpa [StdMap.find, hk] using ih

theorem isObservationViable_mapIn_eq {R P LinkEnds : Type} [Sub R]
    [DecidableEq LinkEnds] (isTargetInView : R → Vector3 R → P → R → Bool)
    (linkEnds : LinkEnds) (memory : MapMemory R P LinkEnds) :
    isObservationViable_mapIn isTargetInView linkEnds memory =
      (isObservationViable_map memory.states memory.times linkEnds
        (memory.viabilityCalculators.map (fun entry =>
          (entry.1, entry.2.map (fun c => c.toCalculator isTargetInView)))),
        memory) := by
  rw [isObservationViable_map_eq_find, StdMap.find_map]
  unfold isObservationViable_mapIn StdMap.count StdMap.at
  cases hfind : StdMap.find memory.viabilityCalculators linkEnds with
  | none => simp
  | some calculators =>
    simp [isObservationViable_vectorIn_eq,
      StdMap.assign_find _ _ _ hfind]

/-- Claim C11. Evaluating viability has no side effect on the memory
reachable from the call: after a call of the minimum elevation angle
calculator, of the list form or of the registry form, the states, the times,
the registry, the list of calculators and each calculator's configuration
(index pairs and threshold) are what they were before, and a second
evaluation on the memory left by the first returns the same result. -/
theorem isObservationViable_memory_unchanged {R P LinkEnds : Type} [Sub R]
    [DecidableEq LinkEnds] (isTargetInView : R → Vector3 R → P → R → Bool)
    (calculatorMemory : CalculatorMemory R P)
    (vectorMemory : VectorMemory R P) (linkEnds : LinkEnds)
    (mapMemory : MapMemory R P LinkEnds) :
    ((MinimumElevationAngleCalculator.isObservationViableIn isTargetInView
          calculatorMemory).2 = calculatorMemory ∧
      (MinimumElevationAngleCalculator.isObservationViableIn isTargetInView
          calculatorMemory).2.calculator.linkEndIndices_ =
        calculatorMemory.calculator.linkEndIndices_ ∧
      (MinimumElevationAngleCalculator.isObservationViableIn isTargetInView
          calculatorMemory).2.calculator.minimumElevationAngle_ =
        calculatorMemory.calculator.minimumElevationAngle_ ∧
      (MinimumElevationAngleCalculator.isObservationViableIn isTargetInView
          (MinimumElevationAngleCalculator.isObservationViableIn
            isTargetInView calculatorMemory).2).1 =
        (MinimumElevationAngleCalculator.isObservationViableIn isTargetInView
          calculatorMemory).1) ∧
    ((isObservationViable_vectorIn isTargetInView []
          vectorMemory.viabilityCalculators vectorMemory.states
          vectorMemory.times).2 = vectorMemory ∧
      (isObservationViable_vectorIn isTargetInView []
          (isObservationViable_vectorIn isTargetInView []
            vectorMemory.viabilityCalculators vectorMemory.states
            vectorMemory.times).2.viabilityCalculators
          (isObservationViable_vectorIn isTargetInView []
            vectorMemory.viabilityCalculators vectorMemory.states
            vectorMemory.times).2.states
          (isObservationViable_vectorIn isTargetInView []
            vectorMemory.viabilityCalculators vectorMemory.states
            vectorMemory.times).2.times).1 =
        (isObservationViable_vectorIn isTargetInView []
          vectorMemory.viabilityCalculators vectorMemory.states
          vectorMemory.times).1) ∧
    ((isObservationViable_mapIn isTargetInView linkEnds mapMemory).2 =
        mapMemory ∧
      (isObservationViable_mapIn isTargetInView linkEnds
          (isObservationViable_mapIn isTargetInView linkEnds mapMemory).2).1 =
        (isObservationViable_mapIn isTargetInView linkEnds mapMemory).1) := by
  have hcalc := MinimumElevationAngleCalculator.isObservationViableIn_eq
    isTargetInView calculatorMemory
  have hvec := isObservationViable_vectorIn_eq isTargetInView []
    vectorMemory.viabilityCalculators vectorMemory.states vectorMemory.times
  have hmap := isObservationViable_mapIn_eq isTargetInView linkEnds mapMemory
  refine ⟨⟨?_, ?_, ?_, ?_⟩, ⟨?_, ?_⟩, ⟨?_, ?_⟩⟩
  · rw [hcalc]
  · rw [hcalc]
  · rw [hcalc]
  · simp only [hcalc]
  · rw [hvec, List.nil_append]
  · simp only [hvec, List.nil_append]
  · rw [hmap]
  · simp only [hmap]

/-! ### The observation simulator -/

theorem simulateObservationsWithViability_of_ok {R V LinkEnds : Type}
    [DecidableEq LinkEnds]
    (linkEndStatesAndTimes : R → List (Vector6 R) × List R)
    (observable : List (Vector6 R) → List R → V) (linkEnds : LinkEnds)
    (registry : StdMap LinkEnds (List (ObservationViabilityCalculator R)))
    (requested : List R) (out : List (R × V))
    (h : simulateObservationsWithViability linkEndStatesAndTimes observable
      linkEnds registry requested = .ok out) :
    out = (requested.filter
        (epochViable linkEndStatesAndTimes linkEnds registry)).map
      (fun time => (time, observable (linkEndStatesAndTimes time).1
        (linkEndStatesAndTimes time).2)) := by
  induction requested generalizing out with
  | nil =>
    simp only [simulateObservationsWithViability, Except.ok.injEq] at h
    simp [← h]
  | cons time rest ih =>
    rw [simulateObservationsWithViability] at h
    cases hv : isObservationViable_map (linkEndStatesAndTimes time).1
        (linkEndStatesAndTimes time).2 linkEnds registry with
    | error e => rw [hv] at h; cases h
    | ok viable =>
      rw [hv] at h
      cases hrest : simulateObservationsWithViability linkEndStatesAndTimes
          observable linkEnds registry rest with
      | error e => rw [hrest] at h; cases h
      | ok later =>
        rw [hrest] at h
        have hlater := ih later hrest
        cases viable
        · simp only [Bool.false_eq_true, if_false, Except.ok.injEq] at h
          simp [List.filter_cons, epochViable, hv, ← h, hlater]
        · simp only [if_true, Except.ok.injEq] at h
          simp [List.filter_cons, epochViable, hv, ← h, hlater]

theorem simulateObservationsWithViability_returns {R V LinkEnds : Type}
    [DecidableEq LinkEnds]
    (linkEndStatesAndTimes : R → List (Vector6 R) × List R)
    (observable : List (Vector6 R) → List R → V) (linkEnds : LinkEnds)
    (registry : StdMap LinkEnds (List (ObservationViabilityCalculator R)))
    (requested : List R)
    (h : ∀ time ∈ requested, ∃ b,
      isObservationViable_map (linkEndStatesAndTimes time).1
        (linkEndStatesAndTimes time).2 linkEnds registry = .ok b) :
    ∃ out, simulateObservationsWithViability linkEndStatesAndTimes observable
      linkEnds registry requested = .ok out := by
  induction requested with
  | nil => exact ⟨[], rfl⟩
  | cons time rest ih =>
    obtain ⟨b, hb⟩ := h time (List.mem_cons_self _ _)
    obtain ⟨later, hlater⟩ := ih (fun t ht => h t (List.mem_cons_of_mem _ ht))
    rw [simulateObservationsWithViability, hb, hlater]
    cases b
    · exact ⟨later, rfl⟩
    · exact ⟨_, rfl⟩

theorem simulateObservationsWithViability_evaluations {R V LinkEnds : Type}
    [DecidableEq LinkEnds]
    (linkEndStatesAndTimes : R → List (Vector6 R) × List R)
    (observable : List (Vector6 R) → List R → V) (linkEnds : LinkEnds)
    (registry : StdMap LinkEnds (List (ObservationViabilityCalculator R)))
    (requested : List R) (out : List (R × V))
    (h : simulateObservationsWithViability linkEndStatesAndTimes observable
      linkEnds registry requested = .ok out) :
    ∀ time ∈ requested, ∃ b,
      isObservationViable_map (linkEndStatesAndTimes time).1
        (linkEndStatesAndTimes time).2 linkEnds registry = .ok b := by
  induction requested generalizing out with
  | nil => intro time hmem; cases hmem
  | cons head rest ih =>
    rw [simulateObservationsWithViability] at h
    cases hv : isObservationViable_map (linkEndStatesAndTimes head).1
        (linkEndStatesAndTimes head).2 linkEnds registry with
    | error e => rw [hv] at h; cases h
    | ok viable =>
      rw [hv] at h
      cases hrest : simulateObservationsWithViability linkEndStatesAndTimes
          observable linkEnds registry rest with
      | error e => rw [hrest] at h; cases h
      | ok later =>
        intro time hmem
        rcases List.mem_cons.mp hmem with rfl | hmem
        · exact ⟨viable, hv⟩
        · exact ih later hrest time hmem

/-- Claim C12. For a requested sequence of times the Observation Simulator
returns exactly the epochs that the Viability Calculator Set reports viable,
in the order of the request, each paired with the value computed for that
epoch.  The surviving times are a subsequence of the request; simulating a
request in two parts and joining the outputs gives the output of the whole
request, so a dropped epoch neither shifts nor alters a surviving one and
whether an epoch survives depends on the states and times of that epoch
only.  The simulator returns whenever no viability evaluation throws. -/
theorem simulateObservationsWithViability_eq_filter {R V LinkEnds : Type}
    [DecidableEq LinkEnds]
    (linkEndStatesAndTimes : R → List (Vector6 R) × List R)
    (observable : List (Vector6 R) → List R → V) (linkEnds : LinkEnds)
    (registry : StdMap LinkEnds (List (ObservationViabilityCalculator R)))
    (requested : List R) :
    ((∀ time ∈ requested, ∃ b,
        isObservationViable_map (linkEndStatesAndTimes time).1
          (linkEndStatesAndTimes time).2 linkEnds registry = .ok b) →
      simulateObservationsWithViability linkEndStatesAndTimes observable
          linkEnds registry requested =
        .ok ((requested.filter
            (epochViable linkEndStatesAndTimes linkEnds registry)).map
          (fun time => (time, observable (linkEndStatesAndTimes time).1
            (linkEndStatesAndTimes time).2)))) ∧
    (∀ out, simulateObservationsWithViability linkEndStatesAndTimes observable
          linkEnds registry requested = .ok out →
      out = (requested.filter
            (epochViable linkEndStatesAndTimes linkEnds registry)).map
          (fun time => (time, observable (linkEndStatesAndTimes time).1
            (linkEndStatesAndTimes time).2)) ∧
        List.Sublist (out.map Prod.fst) requested) ∧
    (∀ first second out₁ out₂, requested = first ++ second →
      simulateObservationsWithViability linkEndStatesAndTimes observable
          linkEnds registry first = .ok out₁ →
      simulateObservationsWithViability linkEndStatesAndTimes observable
          linkEnds registry second = .ok out₂ →
      simulateObservationsWithViability linkEndStatesAndTimes observable
          linkEnds registry requested = .ok (out₁ ++ out₂)) := by
  refine ⟨?_, ?_, ?_⟩
  · intro h
    obtain ⟨out, hout⟩ := simulateObservationsWithViability_returns
      linkEndStatesAndTimes observable linkEnds registry requested h
    rw [hout, simulateObservationsWithViability_of_ok linkEndStatesAndTimes
      observable linkEnds registry requested out hout]
  · intro out hout
    have heq := simulateObservationsWithViability_of_ok linkEndStatesAndTimes
      observable linkEnds registry requested out hout
    refine ⟨heq, ?_⟩
    rw [heq, List.map_map]
    have hid : (Prod.fst ∘ fun time : R =>
        (time, observable (linkEndStatesAndTimes time).1
          (linkEndStatesAndTimes time).2)) = id := rfl
    rw [hid, List.map_id]
    exact List.filter_sublist _
  · intro first second out₁ out₂ hsplit h₁ h₂
    subst hsplit
    have hall : ∀ time ∈ first ++ second, ∃ b,
        isObservationViable_map (linkEndStatesAndTimes time).1
          (linkEndStatesAndTimes time).2 linkEnds registry = .ok b := by
      intro time hmem
      rcases List.mem_append.mp hmem with hmem | hmem
      · exact simulateObservationsWithViability_evaluations _ _ _ _ _ _ h₁
          time hmem
      · exact simulateObservationsWithViability_evaluations _ _ _ _ _ _ h₂
          time hmem
    obtain ⟨out, hout⟩ := simulateObservationsWithViability_returns
      linkEndStatesAndTimes observable linkEnds registry _ hall
    rw [hout, simulateObservationsWithViability_of_ok _ _ _ _ _ _ hout,
      simulateObservationsWithViability_of_ok _ _ _ _ _ _ h₁,
      simulateObservationsWithViability_of_ok _ _ _ _ _ _ h₂,
      List.filter_append, List.map_append]

/-- Evaluation of claim C12: a threshold of 10 degrees and requested epochs
with elevations 5, 15, 8, 20: the epochs 15 and 20 survive, in that order,
with their own values 30 and 40. -/
theorem simulateObservationsWithViability_eq_filter_witness :
    (∀ time ∈ [(5 : Int), 15, 8, 20], ∃ b,
      isObservationViable_map (Example.provider time).1
        (Example.provider time).2 (3 : Nat) [(3, [Example.passing])] =
          .ok b) ∧
    simulateObservationsWithViability Example.provider Example.observable
        (3 : Nat) [(3, [Example.passing])] [5, 15, 8, 20] =
      .ok (([(5 : Int), 15, 8, 20].filter
          (epochViable Example.provider (3 : Nat)
            [(3, [Example.passing])])).map
        (fun time => (time, Example.observable (Example.provider time).1
          (Example.provider time).2))) ∧
    simulateObservationsWithViability Example.provider Example.observable
        (3 : Nat) [(3, [Example.passing])] [5, 15, 8, 20] =
      .ok [(15, 30), (20, 40)] :=
  have hbool : ∀ time ∈ [(5 : Int), 15, 8, 20], ∃ b,
      isObservationViable_map (Example.provider time).1
        (Example.provider time).2 (3 : Nat) [(3, [Example.passing])] =
          .ok b := by
    intro time hmem
    simp only [List.mem_cons, List.mem_singleton, List.not_mem_nil,
      or_false] at hmem
    rcases hmem with rfl | rfl | rfl | rfl
    · exact ⟨false, rfl⟩
    · exact ⟨true, rfl⟩
    · exact ⟨false, rfl⟩
    · exact ⟨true, rfl⟩
  ⟨hbool,
    (simulateObservationsWithViability_eq_filter Example.provider
      Example.observable (3 : Nat) [(3, [Example.passing])]
      [5, 15, 8, 20]).1 hbool,
    rfl⟩

end observation_models

namespace Double

/-! ### Operations of doubles that need no rounding -/

theorem bitLength_le (fuel n k : Nat) (h : n < 2 ^ k) :
    bitLength fuel n ≤ k := by
  induction fuel generalizing n k with
  | zero => simp [bitLength]
  | succ fuel ih =>
    rw [bitLength]
    by_cases hn : n = 0
    · simp [hn]
    · rw [if_neg hn]
      cases k with
      | zero => simp at h; omega
      | succ k =>
        have hhalf : n / 2 < 2 ^ k := by
          rw [pow_succ] at h
          omega
        have := ih (n / 2) k hhalf
        omega

theorem roundMagnitude_exact (extra t y : Nat) (hdvd : 2 ^ t ∣ y)
    (hlt : y < 2 ^ (t + 53)) : roundMagnitude extra (y * 2 ^ extra) = y := by
  have hm : y * 2 ^ extra < 2 ^ (t + 53 + extra) := by
    rw [pow_add 2 (t + 53) extra]
    exact Nat.mul_lt_mul_of_pos_right hlt (Nat.pow_pos (by decide))
  have hbits := bitLength_le (y * 2 ^ extra) (y * 2 ^ extra) _ hm
  simp only [roundMagnitude]
  generalize hshift :
    max (bitLength (y * 2 ^ extra) (y * 2 ^ extra) - 53) extra = shift
  have hs1 : extra ≤ shift := by rw [← hshift]; exact le_max_right _ _
  have hs2 : shift ≤ t + extra := by
    rw [← hshift]
    exact max_le (by omega) (by omega)
  have hsplit : 2 ^ shift = 2 ^ (shift - extra) * 2 ^ extra := by
    rw [← pow_add, Nat.sub_add_cancel hs1]
  have hdvd' : 2 ^ shift ∣ y * 2 ^ extra := by
    have h1 : 2 ^ shift ∣ 2 ^ (t + extra) := pow_dvd_pow 2 hs2
    have h2 : 2 ^ (t + extra) ∣ y * 2 ^ extra := by
      rw [pow_add]
      exact Nat.mul_dvd_mul hdvd (dvd_refl _)
    exact dvd_trans h1 h2
  have hrem : y * 2 ^ extra % 2 ^ shift = 0 := Nat.mod_eq_zero_of_dvd hdvd'
  have hpos : 0 < 2 ^ shift := Nat.pow_pos (by decide)
  have hcond : ¬ (2 ^ shift < 2 * (y * 2 ^ extra % 2 ^ shift) ∨
      (2 * (y * 2 ^ extra % 2 ^ shift) = 2 ^ shift ∧
        y * 2 ^ extra / 2 ^ shift % 2 = 1)) := by
    rw [hrem]
    omega
  rw [if_neg hcond]
  obtain ⟨c, hc⟩ := hdvd'
  rw [hc, Nat.mul_div_cancel_left c hpos]
  have hy : y = 2 ^ (shift - extra) * c := by
    have h3 : y * 2 ^ extra = 2 ^ (shift - extra) * c * 2 ^ extra := by
      rw [hc, hsplit]
      ring
    exact Nat.eq_of_mul_eq_mul_right (Nat.pow_pos (by decide)) h3
  rw [hy]
  ring

theorem natAbs_mul_two_pow (y : Int) (e : Nat) :
    (y * 2 ^ e).natAbs = y.natAbs * 2 ^ e := by
  rw [Int.natAbs_mul, Int.natAbs_pow]
  rfl

theorem mul_two_pow_lt (n e : Nat) (h : n < 2 ^ 53) :
    n * 2 ^ e < 2 ^ (e + 53) := by
  rw [pow_add 2 e 53, Nat.mul_comm (2 ^ e)]
  exact Nat.mul_lt_mul_of_pos_right h (Nat.pow_pos (by decide))

theorem two_pow_le (a b : Nat) (h : a ≤ b) : 2 ^ a ≤ 2 ^ b :=
  Nat.pow_le_pow_right (by decide) h

theorem round_exact (extra t : Nat) (y : Int) (hdvd : 2 ^ t ∣ y.natAbs)
    (hlt : y.natAbs < 2 ^ (t + 53)) (hfin : y.natAbs < 2 ^ 2098) :
    round extra (y * 2 ^ extra) = .finite y := by
  have habs : (y * 2 ^ extra).natAbs = y.natAbs * 2 ^ extra :=
    natAbs_mul_two_pow y extra
  have hmag : roundMagnitude extra (y * 2 ^ extra).natAbs = y.natAbs := by
    rw [habs]
    exact roundMagnitude_exact extra t y.natAbs hdvd hlt
  have hpow : (0 : Int) < 2 ^ extra := by positivity
  unfold round
  rw [hmag, if_neg (by omega)]
  by_cases hneg : y < 0
  · have hneg' : y * 2 ^ extra < 0 := Int.mul_neg_of_neg_of_pos hneg hpow
    rw [if_pos hneg']
    congr 1
    omega
  · have hneg' : ¬ y * 2 ^ extra < 0 := by
      have : 0 ≤ y * 2 ^ extra := Int.mul_nonneg (by omega) (le_of_lt hpow)
      omega
    rw [if_neg hneg']
    congr 1
    omega

theorem finite_add_finite (a b : Int) :
    (.finite a : Double) + .finite b = round 0 (a + b) := rfl

theorem finite_sub_finite (a b : Int) :
    (.finite a : Double) - .finite b = round 0 (a + -b) := rfl

theorem finite_mul_finite (a b : Int) :
    (.finite a : Double) * .finite b = round 1074 (a * b) := rfl

theorem finite_lt_finite (a b : Int) :
    (.finite a : Double) < .finite b ↔ a < b := by
  show lt (.finite a) (.finite b) = true ↔ a < b
  simp [lt]

theorem round_zero : round 0 0 = .finite 0 := by decide!

theorem round_scaled (extra : Nat) (k : Int) (h : k.natAbs < 2 ^ 53) :
    round extra (k * 2 ^ 1074 * 2 ^ extra) = .finite (k * 2 ^ 1074) := by
  have habs : (k * 2 ^ 1074).natAbs = k.natAbs * 2 ^ 1074 :=
    natAbs_mul_two_pow k 1074
  have hlt : k.natAbs * 2 ^ 1074 < 2 ^ (1074 + 53) :=
    mul_two_pow_lt k.natAbs 1074 h
  apply round_exact extra 1074
  · rw [habs]
    exact Dvd.intro_left _ rfl
  · rw [habs]
    exact hlt
  · rw [habs]
    exact lt_of_lt_of_le hlt (two_pow_le (1074 + 53) 2098 (by decide))

theorem ofInt_eq (k : Int) (h : k.natAbs < 2 ^ 53) :
    ofInt k = .finite (k * 2 ^ 1074) := by
  have := round_scaled 0 k h
  rwa [pow_zero, mul_one] at this

theorem add_ofInt (a b : Int) (ha : a.natAbs < 2 ^ 53)
    (hb : b.natAbs < 2 ^ 53) (hab : (a + b).natAbs < 2 ^ 53) :
    ofInt a + ofInt b = ofInt (a + b) := by
  rw [ofInt_eq a ha, ofInt_eq b hb, ofInt_eq (a + b) hab, finite_add_finite,
    ← add_mul]
  have := round_scaled 0 (a + b) hab
  rwa [pow_zero, mul_one] at this

theorem mul_ofInt (a b : Int) (ha : a.natAbs < 2 ^ 53)
    (hb : b.natAbs < 2 ^ 53) (hab : (a * b).natAbs < 2 ^ 53) :
    ofInt a * ofInt b = ofInt (a * b) := by
  rw [ofInt_eq a ha, ofInt_eq b hb, ofInt_eq (a * b) hab, finite_mul_finite]
  have hre : a * 2 ^ 1074 * (b * 2 ^ 1074) =
      a * b * 2 ^ 1074 * 2 ^ 1074 := by ring
  rw [hre]
  exact round_scaled 1074 (a * b) hab

theorem ofInt_lt_ofInt (a b : Int) (ha : a.natAbs < 2 ^ 53)
    (hb : b.natAbs < 2 ^ 53) : ofInt a < ofInt b ↔ a < b := by
  rw [ofInt_eq a ha, ofInt_eq b hb, finite_lt_finite]
  have hpow : (0 : Int) < 2 ^ 1074 := by positivity
  exact mul_lt_mul_right hpow

theorem lt_irrefl (d : Double) : ¬ d < d := by
  show ¬ lt d d = true
  cases d with
  | finite a => simp [lt]
  | infinity negative => cases negative <;> simp [lt]
  | nan => simp [lt]

theorem add_sub_cancel_of_exact (t q : Double) (h : AddsExactly t q) :
    t + q - t = q := by
  cases t with
  | finite a =>
    cases q with
    | finite b =>
      obtain ⟨hb, hab⟩ := h
      have hre : a + b + -a = b := by ring
      rw [finite_add_finite, hab, finite_sub_finite, hre, hb]
    | infinity negative => exact absurd h (by simp [AddsExactly])
    | nan => exact absurd h (by simp [AddsExactly])
  | infinity negative => exact absurd h (by simp [AddsExactly])
  | nan => exact absurd h (by simp [AddsExactly])

theorem add_zero_of_isFinite (t : Double) (h : t.IsFinite) :
    t + .finite 0 = t ∧ t - t = .finite 0 := by
  cases t with
  | finite a =>
    have ha : round 0 a = .finite a := h
    refine ⟨?_, ?_⟩
    · rw [finite_add_finite, add_zero, ha]
    · rw [finite_sub_finite, add_neg_cancel, round_zero]
  | infinity negative => exact absurd h (by simp [IsFinite])
  | nan => exact absurd h (by simp [IsFinite])

end Double

namespace unit_tests

/-! ### The requested observation times -/

theorem baseTimeListLoop_length
    (observationTimeStart observationInterval : Double) (days : Nat) :
    (baseTimeListLoop observationTimeStart observationInterval days).length =
      500 * days := by
  induction days with
  | zero => rfl
  | succ i ih =>
    rw [baseTimeListLoop, List.length_append, ih, List.length_map,
      List.length_range]
    omega

theorem baseTimeListLoop_getElem?
    (observationTimeStart observationInterval : Double) (days a : Nat)
    (ha : a < 500 * days) :
    (baseTimeListLoop observationTimeStart observationInterval days)[a]? =
      some (observationTimeStart +
        Double.ofInt (a / 500 : Nat) * Double.ofInt 86400 +
        Double.ofInt (a % 500 : Nat) * observationInterval) := by
  induction days with
  | zero => omega
  | succ i ih =>
    rw [baseTimeListLoop]
    by_cases hlt : a < 500 * i
    · rw [List.getElem?_append_left (by rw [baseTimeListLoop_length]; exact hlt)]
      exact ih hlt
    · have hq : a / 500 = i := by omega
      have hr : a - 500 * i = a % 500 := by omega
      rw [List.getElem?_append_right
          (by rw [baseTimeListLoop_length]; omega),
        baseTimeListLoop_length, hr, List.getElem?_map,
        List.getElem?_range (Nat.mod_lt _ (by decide)), hq]
      rfl

theorem baseTimeList_entry_exact (s : Int) (i j : Nat)
    (hbound : s.natAbs + 86400 * i + 11000 < 2 ^ 53) (hj : j < 500) :
    Double.ofInt s + Double.ofInt 1000 +
        Double.ofInt i * Double.ofInt 86400 +
        Double.ofInt j * Double.ofInt 20 =
      Double.ofInt (s + 1000 + 86400 * i + 20 * j) := by
  have h53 : (2 : Nat) ^ 53 = 9007199254740992 := by norm_num
  rw [h53] at hbound
  rw [Double.add_ofInt s 1000 (by rw [h53]; omega) (by rw [h53]; omega)
      (by rw [h53]; omega),
    Double.mul_ofInt i 86400 (by rw [h53]; omega) (by rw [h53]; omega)
      (by rw [h53]; omega),
    Double.add_ofInt (s + 1000) (i * 86400) (by rw [h53]; omega)
      (by rw [h53]; omega) (by rw [h53]; omega),
    Double.mul_ofInt j 20 (by rw [h53]; omega) (by rw [h53]; omega)
      (by rw [h53]; omega),
    Double.add_ofInt (s + 1000 + i * 86400) (j * 20) (by rw [h53]; omega)
      (by rw [h53]; omega) (by rw [h53]; omega)]
  congr 1
  ring

/-- Claim C18, as stated, fails: the list is computed in double arithmetic,
and at the start time `2 ^ 60` the first two entries, which the claim puts
20 apart, are the same double, so the list is not strictly increasing. -/
theorem baseTimeList_not_increasing :
    (baseTimeList (Double.ofInt (2 ^ 60)) 1)[0]? =
        (baseTimeList (Double.ofInt (2 ^ 60)) 1)[1]? ∧
      ¬ List.Pairwise (fun earlier later => earlier < later)
        (baseTimeList (Double.ofInt (2 ^ 60)) 1) := by
  have hsame : (baseTimeList (Double.ofInt (2 ^ 60)) 1)[0]? =
      (baseTimeList (Double.ofInt (2 ^ 60)) 1)[1]? := by decide!
  refine ⟨hsame, ?_⟩
  intro hpairwise
  have hlen : (baseTimeList (Double.ofInt (2 ^ 60)) 1).length = 500 :=
    baseTimeListLoop_length _ _ 1
  rw [List.pairwise_iff_getElem] at hpairwise
  have hlt := hpairwise 0 1 (by rw [hlen]; decide) (by rw [hlen]; decide)
    (by decide)
  rw [List.getElem?_eq_getElem (by rw [hlen]; decide),
    List.getElem?_eq_getElem (by rw [hlen]; decide)] at hsame
  rw [Option.some.inj hsame] at hlt
  exact Double.lt_irrefl _ hlt

/-- Claim C18, amended. In `executeEarthOrbiterParameterEstimation` the
requested observation time list has exactly `500 * n` entries when the
number of days `n` is not negative and is empty when `n` is not positive;
its entry at position `500 * i + j`, for `i` below `n` and `j` below 500, is
the double `startTime + 1000.0 + i * 86400.0 + j * 20.0` computed from left
to right in double arithmetic.  When the start time is an integer `s` with
`|s| + 86400 * n + 11000 < 2 ^ 53` that arithmetic is exact: the entry is
the double of the integer `s + 1000 + 86400 * i + 20 * j`, and the list is
strictly increasing.  The default start time `1.0E7` meets this bound for
every number of days below `2 ^ 31`. -/
theorem baseTimeList_entries (startTime : Double) (numberOfDaysOfData : Int) :
    (0 ≤ numberOfDaysOfData →
      ((baseTimeList startTime numberOfDaysOfData).length : Int) =
        500 * numberOfDaysOfData) ∧
    (numberOfDaysOfData ≤ 0 → baseTimeList startTime numberOfDaysOfData = []) ∧
    (∀ i j : Nat, (i : Int) < numberOfDaysOfData → j < 500 →
      (baseTimeList startTime numberOfDaysOfData)[500 * i + j]? =
        some (startTime + Double.ofInt 1000 +
          Double.ofInt i * Double.ofInt 86400 +
          Double.ofInt j * Double.ofInt 20)) ∧
    (∀ s : Int, startTime = Double.ofInt s →
      s.natAbs + 86400 * numberOfDaysOfData.toNat + 11000 < 2 ^ 53 →
      (∀ i j : Nat, (i : Int) < numberOfDaysOfData → j < 500 →
        (baseTimeList startTime numberOfDaysOfData)[500 * i + j]? =
          some (Double.ofInt (s + 1000 + 86400 * i + 20 * j))) ∧
      List.Pairwise (fun earlier later => earlier < later)
        (baseTimeList startTime numberOfDaysOfData)) ∧
    (numberOfDaysOfData < 2 ^ 31 →
      (10000000 : Int).natAbs + 86400 * numberOfDaysOfData.toNat + 11000 <
        2 ^ 53) := by
  have hlen : (baseTimeList startTime numberOfDaysOfData).length =
      500 * numberOfDaysOfData.toNat :=
    baseTimeListLoop_length _ _ _
  have hentry : ∀ a : Nat, a < 500 * numberOfDaysOfData.toNat →
      (baseTimeList startTime numberOfDaysOfData)[a]? =
        some (startTime + Double.ofInt 1000 +
          Double.ofInt (a / 500 : Nat) * Double.ofInt 86400 +
          Double.ofInt (a % 500 : Nat) * Double.ofInt 20) :=
    fun a ha => baseTimeListLoop_getElem? _ _ _ a ha
  have h53 : (2 : Nat) ^ 53 = 9007199254740992 := by norm_num
  refine ⟨?_, ?_, ?_, ?_, ?_⟩
  rotate_left 4
  · intro hn
    have h31 : (2 : Int) ^ 31 = 2147483648 := by norm_num
    have habs : (10000000 : Int).natAbs = 10000000 := rfl
    rw [h31] at hn
    rw [h53, habs]
    omega
  · intro hn
    rw [hlen]
    push_cast
    rw [Int.toNat_of_nonneg hn]
  · intro hn
    unfold baseTimeList
    rw [Int.toNat_eq_zero.mpr hn]
    rfl
  · intro i j hi hj
    have hlt : 500 * i + j < 500 * numberOfDaysOfData.toNat := by omega
    have hq : (500 * i + j) / 500 = i := by omega
    have hr : (500 * i + j) % 500 = j := by omega
    rw [hentry _ hlt, hq, hr]
  · intro s hstart hbound
    have hexact : ∀ a : Nat, a < 500 * numberOfDaysOfData.toNat →
        (baseTimeList startTime numberOfDaysOfData)[a]? =
          some (Double.ofInt
            (s + 1000 + 86400 * (a / 500 : Nat) + 20 * (a % 500 : Nat))) := by
      intro a ha
      rw [hentry a ha, hstart,
        baseTimeList_entry_exact s (a / 500) (a % 500)
          (by rw [h53] at hbound ⊢; omega) (Nat.mod_lt _ (by decide))]
    refine ⟨?_, ?_⟩
    · intro i j hi hj
      have hlt : 500 * i + j < 500 * numberOfDaysOfData.toNat := by omega
      have hq : (500 * i + j) / 500 = i := by omega
      have hr : (500 * i + j) % 500 = j := by omega
      rw [hexact _ hlt, hq, hr]
    · rw [List.pairwise_iff_getElem]
      intro a b ha hb hab
      rw [hlen] at ha hb
      have hga := (List.getElem?_eq_getElem (hlen ▸ ha)).symm.trans
        (hexact a ha)
      have hgb := (List.getElem?_eq_getElem (hlen ▸ hb)).symm.trans
        (hexact b hb)
      rw [Option.some.inj hga, Option.some.inj hgb]
      rw [h53] at hbound
      rw [Double.ofInt_lt_ofInt _ _ (by rw [h53]; omega) (by rw [h53]; omega)]
      omega

/-- Evaluation of the amended claim C18: the default start time `1.0E7` and
three days give 1500 entries, strictly increasing, and the last one, at
position `500 * 2 + 499`, is the double of 10182780. -/
theorem baseTimeList_entries_witness :
    (10000000 : Int).natAbs + 86400 * (3 : Int).toNat + 11000 < 2 ^ 53 ∧
    ((baseTimeList (Double.ofInt 10000000) 3).length : Int) = 500 * 3 ∧
    (baseTimeList (Double.ofInt 10000000) 3)[500 * 2 + 499]? =
      some (Double.ofInt (10000000 + 1000 + 86400 * (2 : Nat) +
        20 * (499 : Nat))) ∧
    List.Pairwise (fun earlier later => earlier < later)
      (baseTimeList (Double.ofInt 10000000) 3) ∧
    baseTimeList (Double.ofInt 10000000) (-1) = [] :=
  ⟨(baseTimeList_entries (Double.ofInt 10000000) 3).2.2.2.2 (by decide),
    (baseTimeList_entries (Double.ofInt 10000000) 3).1 (by decide),
    ((baseTimeList_entries (Double.ofInt 10000000) 3).2.2.2.1 10000000 rfl
      (by decide)).1 2 499 (by decide) (by decide),
    ((baseTimeList_entries (Double.ofInt 10000000) 3).2.2.2.1 10000000 rfl
      (by decide)).2,
    (baseTimeList_entries (Double.ofInt 10000000) (-1)).2.1 (by decide)⟩

/-! ### The perturbed parameter estimate -/

theorem oneHundredth_nearest :
    oneHundredth = Double.finite (5764607523034235 * 2 ^ 1015) ∧
      (100 * 5764607523034235 - 2 ^ 59 : Int).natAbs * 2 ≤ 100 := by
  refine ⟨by decide!, by decide⟩

theorem zipWith_sub_self (rest : List Double) :
    List.zipWith (fun estimate truth => estimate - truth) rest rest =
      rest.map (fun t => t - t) := by
  induction rest with
  | nil => rfl
  | cons x xs ih => simp [ih]

theorem map_sub_self_of_isFinite (rest : List Double)
    (h : ∀ t ∈ rest, t.IsFinite) :
    rest.map (fun t => t - t) = List.replicate rest.length (Double.finite 0) := by
  induction rest with
  | nil => rfl
  | cons x xs ih =>
    rw [List.map_cons, List.length_cons, List.replicate_succ,
      (Double.add_zero_of_isFinite x (h x (List.mem_cons_self _ _))).2,
      ih (fun t ht => h t (List.mem_cons_of_mem _ ht))]

/-- Claim C17, as stated, fails: with truth parameter -17000.5 at index 3 and
the default perturbation, whose entry there is `1.0E-2`, the offset handed
to `PodInput` has `2748779069 * 2 ^ (-38)` at index 3, which is not the
double `1.0E-2`; so the offset is not the perturbation. -/
theorem perturbParameterEstimate_offset_differs :
    ((perturbParameterEstimate
        [Double.ofInt 1000, Double.ofInt 2000, Double.ofInt 3000,
          Double.ofBinary (-34001) (-1), Double.ofInt 1, Double.ofInt 2,
          Double.ofInt 5000000]
        getDefaultInitialParameterPerturbation).map Prod.snd).bind
        (fun offset => offset[3]?) =
      some (Double.ofBinary 2748779069 (-38)) ∧
    getDefaultInitialParameterPerturbation[3]? = some oneHundredth ∧
    Double.ofBinary 2748779069 (-38) ≠ oneHundredth ∧
    (perturbParameterEstimate
        [Double.ofInt 1000, Double.ofInt 2000, Double.ofInt 3000,
          Double.ofBinary (-34001) (-1), Double.ofInt 1, Double.ofInt 2,
          Double.ofInt 5000000]
        getDefaultInitialParameterPerturbation).map Prod.snd ≠
      some getDefaultInitialParameterPerturbation := by
  have hoffset : ((perturbParameterEstimate
        [Double.ofInt 1000, Double.ofInt 2000, Double.ofInt 3000,
          Double.ofBinary (-34001) (-1), Double.ofInt 1, Double.ofInt 2,
          Double.ofInt 5000000]
        getDefaultInitialParameterPerturbation).map Prod.snd).bind
        (fun offset => offset[3]?) =
      some (Double.ofBinary 2748779069 (-38)) := by decide!
  have hne : Double.ofBinary 2748779069 (-38) ≠ oneHundredth := by decide!
  refine ⟨hoffset, rfl, hne, ?_⟩
  intro hsame
  rw [hsame] at hoffset
  exact hne (Option.some.inj hoffset).symm

/-- Claim C17, amended. In `executePlanetaryParameterEstimation`, for a
perturbation `p` with 7 components the initial parameter estimate is the
truth parameter vector with `p` added, in double arithmetic, on its first 7
components, and the offset handed to `PodInput` is, component by component,
`( truth + p ) - truth` computed in double arithmetic on the first 7
components and `truth - truth` after them.  For a parameter vector of 7
components the offset equals `p` when each addition `truth + p` is exact;
it need not equal `p` otherwise.  A perturbation with zero
rows is replaced by the zero 7-vector: for finite truth parameters the
initial estimate is the truth vector and the offset is the zero vector. -/
theorem perturbParameterEstimate_eq
    (truthParameters parameterPerturbation : List Double)
    (htruth : 7 ≤ truthParameters.length) :
    (parameterPerturbation.length = 7 →
      perturbParameterEstimate truthParameters parameterPerturbation =
          some (List.zipWith (fun truth perturbation => truth + perturbation)
              (truthParameters.take 7) parameterPerturbation ++
                truthParameters.drop 7,
            List.zipWith
              (fun truth perturbation => truth + perturbation - truth)
              (truthParameters.take 7) parameterPerturbation ++
                (truthParameters.drop 7).map (fun truth => truth - truth)) ∧
        (truthParameters.length = 7 →
          List.Forall₂ Double.AddsExactly truthParameters
            parameterPerturbation →
          (perturbParameterEstimate truthParameters parameterPerturbation).map
            Prod.snd = some parameterPerturbation)) ∧
    (parameterPerturbation.length = 0 →
      (∀ truth ∈ truthParameters, truth.IsFinite) →
      perturbParameterEstimate truthParameters parameterPerturbation =
        some (truthParameters,
          List.replicate truthParameters.length (Double.finite 0))) := by
  rcases truthParameters with _ | ⟨t0, _ | ⟨t1, _ | ⟨t2, _ | ⟨t3, _ | ⟨t4,
    _ | ⟨t5, _ | ⟨t6, rest⟩⟩⟩⟩⟩⟩⟩ <;>
    simp only [List.length_nil, List.length_cons] at htruth <;>
    try omega
  have hrun : ∀ p0 p1 p2 p3 p4 p5 p6 : Double,
      (match addPerturbationLoop [p0, p1, p2, p3, p4, p5, p6] 7
          (t0 :: t1 :: t2 :: t3 :: t4 :: t5 :: t6 :: rest) with
      | some initialParameterEstimate =>
        some (initialParameterEstimate,
          List.zipWith (fun estimate truth => estimate - truth)
            initialParameterEstimate
            (t0 :: t1 :: t2 :: t3 :: t4 :: t5 :: t6 :: rest))
      | none => none) =
        some ((t0 + p0) :: (t1 + p1) :: (t2 + p2) :: (t3 + p3) ::
            (t4 + p4) :: (t5 + p5) :: (t6 + p6) :: rest,
          (t0 + p0 - t0) :: (t1 + p1 - t1) :: (t2 + p2 - t2) ::
            (t3 + p3 - t3) :: (t4 + p4 - t4) :: (t5 + p5 - t5) ::
            (t6 + p6 - t6) :: rest.map (fun truth => truth - truth)) := by
    intro p0 p1 p2 p3 p4 p5 p6
    simp [addPerturbationLoop, zipWith_sub_self]
  refine ⟨?_, ?_⟩
  · intro hp
    rcases parameterPerturbation with _ | ⟨p0, _ | ⟨p1, _ | ⟨p2, _ | ⟨p3,
      _ | ⟨p4, _ | ⟨p5, _ | ⟨p6, _ | ⟨p7, more⟩⟩⟩⟩⟩⟩⟩⟩ <;>
      simp only [List.length_nil, List.length_cons] at hp <;>
      try omega
    have hpert : perturbParameterEstimate
          (t0 :: t1 :: t2 :: t3 :: t4 :: t5 :: t6 :: rest)
          [p0, p1, p2, p3, p4, p5, p6] =
        some ((t0 + p0) :: (t1 + p1) :: (t2 + p2) :: (t3 + p3) ::
            (t4 + p4) :: (t5 + p5) :: (t6 + p6) :: rest,
          (t0 + p0 - t0) :: (t1 + p1 - t1) :: (t2 + p2 - t2) ::
            (t3 + p3 - t3) :: (t4 + p4 - t4) :: (t5 + p5 - t5) ::
            (t6 + p6 - t6) :: rest.map (fun truth => truth - truth)) := by
      unfold perturbParameterEstimate
      simp only [List.length_cons, List.length_nil]
      rw [if_neg (by omega)]
      exact hrun p0 p1 p2 p3 p4 p5 p6
    refine ⟨?_, ?_⟩
    · rw [hpert]
      simp
    · intro hlen hexact
      have hrest : rest = [] := by
        simp only [List.length_cons] at hlen
        exact List.length_eq_zero.mp (by omega)
      subst hrest
      simp only [List.forall₂_cons, List.forall₂_nil_left_iff] at hexact
      obtain ⟨h0, h1, h2, h3, h4, h5, h6, -⟩ := hexact
      rw [hpert]
      simp only [Option.map_some', List.map_nil,
        Double.add_sub_cancel_of_exact _ _ h0,
        Double.add_sub_cancel_of_exact _ _ h1,
        Double.add_sub_cancel_of_exact _ _ h2,
        Double.add_sub_cancel_of_exact _ _ h3,
        Double.add_sub_cancel_of_exact _ _ h4,
        Double.add_sub_cancel_of_exact _ _ h5,
        Double.add_sub_cancel_of_exact _ _ h6]
  · intro hp hfinite
    have hnil : parameterPerturbation = [] := List.length_eq_zero.mp hp
    subst hnil
    have hzero : List.replicate 7 (Double.finite 0) =
        [.finite 0, .finite 0, .finite 0, .finite 0, .finite 0, .finite 0,
          .finite 0] := rfl
    have hf : ∀ t ∈ t0 :: t1 :: t2 :: t3 :: t4 :: t5 :: t6 :: rest,
        t + Double.finite 0 = t ∧ t - t = Double.finite 0 :=
      fun t ht => Double.add_zero_of_isFinite t (hfinite t ht)
    have hrestFinite : ∀ t ∈ rest, t.IsFinite := fun t ht =>
      hfinite t (by simp [ht])
    unfold perturbParameterEstimate
    simp only [List.length_nil, if_true]
    rw [hzero, hrun, map_sub_self_of_isFinite rest hrestFinite]
    simp only [(hf t0 (by simp)).1, (hf t1 (by simp)).1, (hf t2 (by simp)).1,
      (hf t3 (by simp)).1, (hf t4 (by simp)).1, (hf t5 (by simp)).1,
      (hf t6 (by simp)).1, (hf t0 (by simp)).2, (hf t1 (by simp)).2,
      (hf t2 (by simp)).2, (hf t3 (by simp)).2, (hf t4 (by simp)).2,
      (hf t5 (by simp)).2, (hf t6 (by simp)).2, List.length_cons,
      List.replicate_succ]

/-- Evaluation of the amended claim C17: truth parameters on which every
addition of the default perturbation is exact (integers, and zero where the
perturbation is `1.0E-2`), so the offset is the perturbation; and the same
truth parameters with a perturbation of zero rows. -/
theorem perturbParameterEstimate_eq_witness :
    7 ≤ [Double.ofInt 1000, Double.ofInt 2000, Double.ofInt 3000,
      Double.ofInt 0, Double.ofInt 0, Double.ofInt 0,
      Double.ofInt 5000000].length ∧
    List.Forall₂ Double.AddsExactly
      [Double.ofInt 1000, Double.ofInt 2000, Double.ofInt 3000,
        Double.ofInt 0, Double.ofInt 0, Double.ofInt 0, Double.ofInt 5000000]
      getDefaultInitialParameterPerturbation ∧
    (perturbParameterEstimate
        [Double.ofInt 1000, Double.ofInt 2000, Double.ofInt 3000,
          Double.ofInt 0, Double.ofInt 0, Double.ofInt 0,
          Double.ofInt 5000000]
        getDefaultInitialParameterPerturbation).map Prod.snd =
      some getDefaultInitialParameterPerturbation ∧
    (∀ truth ∈ [Double.ofInt 1000, Double.ofInt 2000, Double.ofInt 3000,
        Double.ofInt 0, Double.ofInt 0, Double.ofInt 0,
        Double.ofInt 5000000], truth.IsFinite) ∧
    perturbParameterEstimate
        [Double.ofInt 1000, Double.ofInt 2000, Double.ofInt 3000,
          Double.ofInt 0, Double.ofInt 0, Double.ofInt 0,
          Double.ofInt 5000000] [] =
      some ([Double.ofInt 1000, Double.ofInt 2000, Double.ofInt 3000,
          Double.ofInt 0, Double.ofInt 0, Double.ofInt 0,
          Double.ofInt 5000000],
        List.replicate 7 (Double.finite 0)) :=
  have hexact : List.Forall₂ Double.AddsExactly
      [Double.ofInt 1000, Double.ofInt 2000, Double.ofInt 3000,
        Double.ofInt 0, Double.ofInt 0, Double.ofInt 0, Double.ofInt 5000000]
      getDefaultInitialParameterPerturbation :=
    List.Forall₂.cons (by decide!) (List.Forall₂.cons (by decide!)
      (List.Forall₂.cons (by decide!) (List.Forall₂.cons (by decide!)
        (List.Forall₂.cons (by decide!) (List.Forall₂.cons (by decide!)
          (List.Forall₂.cons (by decide!) List.Forall₂.nil))))))
  have hfinite : ∀ truth ∈ [Double.ofInt 1000, Double.ofInt 2000,
      Double.ofInt 3000, Double.ofInt 0, Double.ofInt 0, Double.ofInt 0,
      Double.ofInt 5000000], truth.IsFinite := by
    intro truth hmem
    simp only [List.mem_cons, List.mem_singleton, List.not_mem_nil,
      or_false] at hmem
    rcases hmem with rfl | rfl | rfl | rfl | rfl | rfl | rfl <;> decide!
  ⟨by decide, hexact,
    ((perturbParameterEstimate_eq _ getDefaultInitialParameterPerturbation
      (by decide)).1 rfl).2 rfl hexact,
    hfinite,
    (perturbParameterEstimate_eq _ [] (by decide)).2 rfl hfinite⟩

end unit_tests

namespace orbit_determination

/-! ### The normal equations -/

theorem solveNormalEquations_ok {n K : Type} [Fintype n] [DecidableEq n]
    [Field K] [DecidableEq K] (N : Matrix n n K) (b correction : n → K)
    (h : solveNormalEquations N b = .ok correction) :
    N.mulVec correction = b ∧ ∀ y, N.mulVec y = b → y = correction := by
  unfold solveNormalEquations at h
  by_cases hdet : N.det = 0
  · rw [if_pos hdet] at h
    cases h
  · rw [if_neg hdet] at h
    have hc : correction = N.det⁻¹ • N.adjugate.mulVec b :=
      (Except.ok.inj h).symm
    subst hc
    refine ⟨?_, ?_⟩
    · rw [Matrix.mulVec_smul, Matrix.mulVec_mulVec, Matrix.mul_adjugate,
        Matrix.smul_mulVec_assoc, Matrix.one_mulVec, smul_smul,
        inv_mul_cancel₀ hdet, one_smul]
    · intro y hy
      rw [← hy, Matrix.mulVec_mulVec, Matrix.adjugate_mul,
        Matrix.smul_mulVec_assoc, Matrix.one_mulVec, smul_smul,
        inv_mul_cancel₀ hdet, one_smul]

theorem solveNormalEquations_returns {n K : Type} [Fintype n] [DecidableEq n]
    [Field K] [DecidableEq K] (N : Matrix n n K) (b : n → K)
    (hdet : N.det ≠ 0) : ∃ correction, solveNormalEquations N b = .ok correction :=
  ⟨_, by rw [solveNormalEquations, if_neg hdet]⟩

/-- Claim C13. In every iteration the Batch Estimator builds the weighted
normal equations `N = HᵗWH + P₀⁻¹` (with the zero matrix for `P₀⁻¹` if none
is supplied) and `b = HᵗW·residual − P₀⁻¹·(current_estimate −
a_priori_reference)`, and the correction it adds to the estimate is the
solution of `N·Δx = b`; an iteration applies a correction whenever `N` is
not singular. -/
theorem BatchEstimator.correction_solves {m n K : Type} [Fintype m]
    [DecidableEq m] [Fintype n] [DecidableEq n] [Field K] [DecidableEq K]
    (estimator : BatchEstimator m n K) (initialEstimate : n → K)
    (iteration : Nat) (currentEstimate : n → K)
    (hcurrent : estimator.estimateAfter initialEstimate iteration =
      .ok currentEstimate) :
    (∀ nextEstimate,
      estimator.estimateAfter initialEstimate (iteration + 1) =
        .ok nextEstimate →
      ((estimator.partials currentEstimate).transpose *
            Matrix.diagonal estimator.weights *
            estimator.partials currentEstimate +
          estimator.inverseAPrioriCovariance.getD 0).mulVec
          (nextEstimate - currentEstimate) =
        ((estimator.partials currentEstimate).transpose *
            Matrix.diagonal estimator.weights).mulVec
            (estimator.residuals currentEstimate) -
          (estimator.inverseAPrioriCovariance.getD 0).mulVec
            (currentEstimate - estimator.aPrioriReference) ∧
      ∀ y,
        ((estimator.partials currentEstimate).transpose *
              Matrix.diagonal estimator.weights *
              estimator.partials currentEstimate +
            estimator.inverseAPrioriCovariance.getD 0).mulVec y =
          ((estimator.partials currentEstimate).transpose *
              Matrix.diagonal estimator.weights).mulVec
              (estimator.residuals currentEstimate) -
            (estimator.inverseAPrioriCovariance.getD 0).mulVec
              (currentEstimate - estimator.aPrioriReference) →
        y = nextEstimate - currentEstimate) ∧
    (estimator.inverseAPrioriCovariance = none →
      normalEquationsMatrix (estimator.partials currentEstimate)
          estimator.weights estimator.inverseAPrioriCovariance =
        (estimator.partials currentEstimate).transpose *
          Matrix.diagonal estimator.weights *
          estimator.partials currentEstimate ∧
      normalEquationsRightHandSide (estimator.partials currentEstimate)
          estimator.weights estimator.inverseAPrioriCovariance
          (estimator.residuals currentEstimate) currentEstimate
          estimator.aPrioriReference =
        ((estimator.partials currentEstimate).transpose *
          Matrix.diagonal estimator.weights).mulVec
          (estimator.residuals currentEstimate)) ∧
    ((normalEquationsMatrix (estimator.partials currentEstimate)
          estimator.weights estimator.inverseAPrioriCovariance).det ≠ 0 →
      ∃ nextEstimate,
        estimator.estimateAfter initialEstimate (iteration + 1) =
          .ok nextEstimate) := by
  refine ⟨?_, ?_, ?_⟩
  · intro nextEstimate hnext
    rw [BatchEstimator.estimateAfter, hcurrent] at hnext
    cases hcorr : estimator.correction currentEstimate with
    | error e => simp [hcorr] at hnext
    | ok correction =>
      simp only [hcorr, Except.ok.injEq] at hnext
      have hdiff : nextEstimate - currentEstimate = correction := by
        rw [← hnext]
        abel
      rw [hdiff]
      exact solveNormalEquations_ok _ _ correction hcorr
  · intro hnone
    rw [hnone]
    refine ⟨?_, ?_⟩
    · simp [normalEquationsMatrix]
    · simp [normalEquationsRightHandSide]
  · intro hdet
    obtain ⟨correction, hcorr⟩ := solveNormalEquations_returns _
      (normalEquationsRightHandSide (estimator.partials currentEstimate)
        estimator.weights estimator.inverseAPrioriCovariance
        (estimator.residuals currentEstimate) currentEstimate
        estimator.aPrioriReference) hdet
    refine ⟨currentEstimate + correction, ?_⟩
    rw [BatchEstimator.estimateAfter, hcurrent]
    have hc : estimator.correction currentEstimate = .ok correction := hcorr
    simp [hc]

/-- Evaluation of claim C13: two observations of one parameter with partials
1 and 2 and residuals 3 and 6 at the estimate 0: `N = 5` is not singular,
the first iteration returns, and its correction solves `5·Δx = 15`. -/
theorem BatchEstimator.correction_solves_witness :
    Example.linear.estimateAfter (fun _ => 0) 0 = .ok (fun _ => 0) ∧
    (normalEquationsMatrix (Example.linear.partials (fun _ => 0))
      Example.linear.weights
      Example.linear.inverseAPrioriCovariance).det ≠ 0 ∧
    ∃ nextEstimate,
      Example.linear.estimateAfter (fun _ => 0) 1 = .ok nextEstimate ∧
      nextEstimate 0 = 3 := by
  have hdet : (normalEquationsMatrix (Example.linear.partials (fun _ => 0))
      Example.linear.weights
      Example.linear.inverseAPrioriCovariance).det ≠ 0 := by
    simp [normalEquationsMatrix, Example.linear, Matrix.det_fin_one,
      Matrix.mul_apply, Fin.sum_univ_two, Matrix.diagonal]
    norm_num
  have hthm := BatchEstimator.correction_solves Example.linear (fun _ => 0) 0
    (fun _ => 0) rfl
  obtain ⟨nextEstimate, hnext⟩ := hthm.2.2 hdet
  refine ⟨rfl, hdet, nextEstimate, hnext, ?_⟩
  have hsolve := congrFun (hthm.1 nextEstimate hnext).1 0
  simp [Example.linear, Matrix.mulVec, Matrix.dotProduct, Matrix.mul_apply,
    Fin.sum_univ_two, Matrix.diagonal] at hsolve
  linarith

end orbit_determination

end tudat
